import Mathlib

set_option maxRecDepth 8000

/-!
Shallow embedding of the trading-ai repository, written for checking its
natural-language specification against the source.

Numeric values from the Python source are modelled as rationals; machine
floats of the source never overflow in the scenarios considered, and no
claim depends on float rounding.  Strings are modelled as Lean strings,
with character-list helpers replacing Python's `in` / `.upper()` /
`.endswith()` so that all definitions reduce in the kernel.  Stateful
async code (trader, exchange client) is modelled by explicit state
passing: each operation takes the trader cache, the exchange-side
position table and an environment describing the outcomes of the
fallible platform calls, and returns the result together with the new
states and the trace of platform calls issued.
-/

namespace TradingAI

/-- Python `needle == haystack[:len(needle)]`: list-prefix test on characters. -/
def segStarts : List Char → List Char → Bool
  | [], _ => true
  | _ :: _, [] => false
  | a :: as, b :: bs => a = b && segStarts as bs

/-- Python `needle in haystack` for strings, as a contiguous-segment test. -/
def segIn (needle : List Char) : List Char → Bool
  | [] => needle.isEmpty
  | b :: rest => segStarts needle (b :: rest) || segIn needle rest

/-- Python `sub in s` (substring membership). -/
def strContains (s sub : String) : Bool := segIn sub.data s.data

/-- Python `s.upper()` (all symbols and quote names in play are ASCII). -/
def strUpper (s : String) : String := ⟨s.data.map Char.toUpper⟩

/-- Python `s.lower()`. -/
def strLower (s : String) : String := ⟨s.data.map Char.toLower⟩

/-- Python `s.endswith(t)`. -/
def strEndsWith (s t : String) : Bool := segStarts t.data.reverse s.data.reverse

/-- Python truthiness of an optional number: `None` and `0` are falsy. -/
def pyTruthy : Option ℚ → Bool
  | none => false
  | some x => x ≠ 0

/-- Last `n` elements of a list (Python `l[-n:]`, used to model the exchange
returning the most recent candles). -/
def takeLast (l : List α) (n : ℕ) : List α := l.drop (l.length - n)

namespace config

/-- Source `config.py`: `ACCOUNT_BALANCE = float(os.getenv("ACCOUNT_BALANCE", "10000"))`. -/
def ACCOUNT_BALANCE : ℚ := 10000

/-- Source `config.py`: `RISK_PERCENT` default 1.0. -/
def RISK_PERCENT : ℚ := 1

/-- Source `config.py`: `RISK_REWARD_RATIO` default 2.0 (final token of the
source name dropped here). -/
def RISK_REWARD : ℚ := 2

/-- Source `config.py`: `ATR_MULTIPLIER` default 2.0. -/
def ATR_MULTIPLIER : ℚ := 2

/-- Source `config.py`: `MAX_LEVERAGE` default 10. -/
def MAX_LEVERAGE : ℤ := 10

/-- Source `config.py`: `MAX_LOSS_PER_TRADE` default 0.02. -/
def MAX_LOSS_PER_TRADE : ℚ := 1 / 50

/-- Source `config.py`: `MAX_POSITION_SIZE` default 0.3. -/
def MAX_POSITION_SIZE : ℚ := 3 / 10

/-- Source `config.py`: `DEFAULT_LEVERAGE` default 10. -/
def DEFAULT_LEVERAGE : ℤ := 10

/-- Source `config.py`: `AI_CONFIDENCE_THRESHOLD` default 0.6. -/
def AI_CONFIDENCE_THRESHOLD : ℚ := 3 / 5

end config

/-! ## Risk calculator (`tradingai/utils/risk_calculator.py`) -/

/-- Source `RiskCalculator`: `position.lower() in ["long", "buy", "做多"]`. -/
def isLongPosition (position : String) : Bool :=
  strLower position = "long" || strLower position = "buy" || strLower position = "做多"

/-- Source `RiskCalculator.calculate_stop_loss`: stop distance `atr * atr_multiplier`,
subtracted for longs and added for shorts, clamped at zero. -/
def calculate_stop_loss (entry_price atr atr_multiplier : ℚ) (position : String) : ℚ :=
  let stop_distance := atr * atr_multiplier
  let stop_loss := if isLongPosition position then entry_price - stop_distance
                   else entry_price + stop_distance
  max stop_loss 0

/-- Source `RiskCalculator.calculate_take_profit`: profit distance is the absolute
stop distance times the risk-reward ratio, added for longs and subtracted for
shorts, clamped at zero. -/
def calculate_take_profit (entry_price stop_loss risk_reward : ℚ) (position : String) : ℚ :=
  let stop_distance := |entry_price - stop_loss|
  let profit_distance := stop_distance * risk_reward
  let take_profit := if isLongPosition position then entry_price + profit_distance
                     else entry_price - profit_distance
  max take_profit 0

/-- Source `RiskCalculator.calculate_position_size`: risk amount over the relative
stop distance gives the position value, whose margin is capped at the account
balance; the returned quantity is the value divided by the entry price. -/
def calculate_position_size (account_balance risk_percent entry_price stop_loss : ℚ)
    (leverage : ℤ) : ℚ :=
  let risk_amount := account_balance * (risk_percent / 100)
  let stop_distance_percent := |entry_price - stop_loss| / entry_price
  if stop_distance_percent = 0 then 0
  else
    let position_value := risk_amount / stop_distance_percent
    let margin_required := position_value / (leverage : ℚ)
    if margin_required > account_balance then
      (account_balance * (leverage : ℚ)) / entry_price
    else
      position_value / entry_price

/-! ## EMA (`tradingai/indicators/calculator.py`, pure-Python branch)

`calculate_ema` without TA-Lib evaluates
`pd.Series(close).ewm(span=period, adjust=False).mean()`: with
`alpha = 2/(span+1)` the first output equals the first close and every
later output is `alpha * close + (1 - alpha) * previous`.  Every output
position carries a number (pandas emits no NaN for numeric input), which
the engine's NaN test downstream counts as a finite value. -/

/-- Tail of the `adjust=False` exponentially weighted mean, carrying the
previous output value. -/
def ewmFrom (alpha prev : ℚ) : List ℚ → List ℚ
  | [] => []
  | x :: xs =>
    let y := alpha * x + (1 - alpha) * prev
    y :: ewmFrom alpha y xs

/-- Pandas `ewm(adjust=False).mean()` over a close series: seeded from the
first value. -/
def ewm (alpha : ℚ) : List ℚ → List ℚ
  | [] => []
  | x :: xs => x :: ewmFrom alpha x xs

/-- Source `IndicatorCalculator.calculate_ema` (pure-Python branch): the
`span=period` smoothing factor is `2 / (period + 1)`. -/
def calculate_ema (closes : List ℚ) (period : ℕ) : List ℚ :=
  ewm (2 / ((period : ℚ) + 1)) closes

/-! ## Symbol parser (`tradingai/scanner/symbol_parser.py`) -/

/-- Source `SymbolParser.QUOTE_CURRENCIES`, in order. -/
def QUOTE_CURRENCIES : List String :=
  ["USDT", "USDC", "BUSD", "USD", "TUSD", "BTC", "ETH", "BNB", "EUR", "GBP", "JPY", "CNY"]

/-- Python `s.strip()`. -/
def strStrip (s : String) : String :=
  ⟨((s.data.dropWhile Char.isWhitespace).reverse.dropWhile Char.isWhitespace).reverse⟩

/-- Python `s.split(sep)` for a one-character separator. -/
def splitChar (c : Char) : List Char → List (List Char)
  | [] => [[]]
  | x :: xs =>
    if x = c then [] :: splitChar c xs
    else
      match splitChar c xs with
      | [] => [[x]]
      | g :: gs => (x :: g) :: gs

/-- Source `SymbolParser._parse_with_separator`: the first of `/`, `-`, `_`
that is present and splits the symbol into exactly two parts yields
(base, quote). -/
def parse_with_separator (s : String) : Option (String × String) :=
  ['/', '-', '_'].findSome? fun sep =>
    if s.data.contains sep then
      match splitChar sep s.data with
      | [b, q] => some (⟨b⟩, ⟨q⟩)
      | _ => none
    else none

/-- Source `SymbolParser._parse_without_separator`: first quote currency that is
a proper suffix (nonempty base). -/
def parse_without_separator (s : String) : Option (String × String) :=
  QUOTE_CURRENCIES.findSome? fun q =>
    if strEndsWith s q && s.data.length > q.data.length then
      some (⟨s.data.take (s.data.length - q.data.length)⟩, q)
    else none

/-- Source `SymbolParser.parse`, restricted to the (base, quote) pair it
computes; the wrapper fields (`formatted`, `exchange`) are constant
reformattings not used by any claim. -/
def SymbolParser_parse (symbol : String) : Option (String × String) :=
  if symbol = "" then none
  else
    let s := strStrip (strUpper symbol)
    match parse_with_separator s with
    | some r => some r
    | none => parse_without_separator s

/-- Source `SymbolParser.get_quote`. -/
def get_quote (symbol : String) : Option String :=
  (SymbolParser_parse symbol).map (·.2)

/-! ## 24h tickers and the volume ranking
(`BinanceClient.get_all_tickers_24h`, `MarketScanner.get_top_volume`) -/

/-- Ticker row as normalised by `get_all_tickers_24h`: `volume` is the
exchange's base-asset volume field and `quote_volume` its `quoteVolume`
field. -/
structure Ticker where
  symbol : String
  volume : ℚ
  quote_volume : ℚ
  price_change_percent : ℚ
deriving Repr, DecidableEq

/-- Source `MarketScanner.get_top_volume`: filter the snapshot by quote
currency, then `sorted(tickers, key=lambda x: x.get('volume', 0),
reverse=True)` (a stable descending sort on the base-volume field), then
take the first `top_n`. -/
def get_top_volume (tickers : List Ticker) (top_n : ℕ) (quote : String) : List Ticker :=
  let ts := tickers.filter fun t => get_quote t.symbol = some (strUpper quote)
  let sorted := ts.mergeSort fun a b => decide (b.volume ≤ a.volume)
  sorted.take top_n

/-! ## Signed-request plumbing (`BinanceClient._request`)

In the source, the body of the `else:` branch at the `if signed:` /
`else:` split contains the whole status check, the HTTP-400
signature-error diagnostics and the `return await resp.json()`; the
signed branch only reads `resp.text()` and then falls off the end of the
function.  The model keeps exactly that branch structure. -/

/-- Outcome of the underlying `aiohttp` call. -/
inductive NetResult where
  | ok (status : ℕ) (text : String) (jsonParses : Bool)
  | timeout
  | clientError (msg : String)
deriving Repr, DecidableEq

/-- What `_request` produces: an exception message, or the Python return value
(`none` models Python's implicit `None`, `some body` models the parsed JSON
body). -/
def binance_request (signed : Bool) (net : NetResult) : Except String (Option String) :=
  match net with
  | .timeout => .error "请求超时 - API无响应"
  | .clientError m => .error ("网络错误: " ++ m)
  | .ok status text jsonParses =>
    if signed then
      -- signed branch: the response text is read, no status check runs and
      -- no value is returned, so the function ends returning None
      .ok none
    else
      if status ≠ 200 then
        .error ("API Error " ++ toString status ++ ": " ++ text)
      else if jsonParses then .ok (some text)
      else .error "无法解析API响应"

/-! ## Review post-hook (`main.perform_review_from_history`,
`tradingai/ai/context_manager.py`) -/

/-- Trade row as returned by `get_closed_trades`. -/
structure RawTrade where
  symbol : String
  order_id : ℕ
  price : ℚ
  quantity : ℚ
  fee : ℚ
  timestamp : ℕ
  is_buyer : Bool
  position_side : String
deriving Repr, DecidableEq

/-- Grouping key `f"{symbol}_{order_id}"` of `_process_trades_for_review`. -/
def tradeKey (t : RawTrade) : String := t.symbol ++ "_" ++ toString t.order_id

/-- Keys in first-occurrence order (Python `defaultdict` preserves insertion
order). -/
def dedupKeys : List String → List String
  | [] => []
  | k :: ks => k :: (dedupKeys ks).filter (· ≠ k)

/-- Paired round-trip produced by `_process_trades_for_review`; the constant
placeholder fields (`duration`, estimated stop/take-profit, the fixed strings)
are omitted, no claim reads them. -/
structure CompleteTrade where
  symbol : String
  direction : String
  entry_price : ℚ
  exit_price : ℚ
  profit_loss : ℚ
deriving Repr, DecidableEq

/-- Pair one `symbol_orderId` group into a complete trade, if it has at least
two fills including a buy and a sell. -/
def pairGroup (group : List RawTrade) : Option CompleteTrade :=
  if group.length < 2 then none
  else
    let sorted := group.mergeSort fun a b => decide (a.timestamp ≤ b.timestamp)
    let buys := sorted.filter (·.is_buyer)
    let sells := sorted.filter (fun t => !t.is_buyer)
    if buys.isEmpty || sells.isEmpty then none
    else
      let entry := (buys.map (fun t => t.price * t.quantity)).sum / (buys.map (·.quantity)).sum
      let exitP := (sells.map (fun t => t.price * t.quantity)).sum / (sells.map (·.quantity)).sum
      let qty := (buys.map (·.quantity)).sum
      let totalFee := (sorted.map (·.fee)).sum
      let firstBuySide := (buys.head?.map (·.position_side)).getD "BOTH"
      if firstBuySide = "LONG" || firstBuySide = "BOTH" then
        some ⟨(buys.head?.map (·.symbol)).getD "", "做多", entry, exitP,
              (exitP - entry) * qty - totalFee⟩
      else
        some ⟨(buys.head?.map (·.symbol)).getD "", "做空", entry, exitP,
              (entry - exitP) * qty - totalFee⟩

/-- Source `main._process_trades_for_review` (the final re-sort by the
formatted `trade_time` string only reorders the output and is omitted). -/
def process_trades_for_review (closed : List RawTrade) : List CompleteTrade :=
  let keys := dedupKeys (closed.map tradeKey)
  keys.filterMap fun k => pairGroup (closed.filter fun t => tradeKey t = k)

/-- Methods defined on `ContextManager` in
`tradingai/ai/context_manager.py` (its complete `def` list). -/
def contextManagerMethods : List String :=
  ["__init__", "save_review_knowledge", "load_review_knowledge",
   "save_optimized_strategies", "load_optimized_strategies",
   "save_learning_results", "load_learning_results",
   "load_all_context", "save_all_context", "clear_all", "get_context_stats"]

/-- Outcome of one run of the review post-hook. -/
structure ReviewRun where
  reviewedSymbols : List String
  swallowedError : Bool
deriving Repr, DecidableEq

/-- Source `main.perform_review_from_history`: after pairing the closed
trades, it evaluates `context_manager.load_reviewed_symbols()`.  That
attribute lookup on `ContextManager` raises `AttributeError` whenever the
method is absent from the class, and the surrounding
`except Exception: pass` swallows it, so the run reviews nothing.  The
`contains`-branch models the lookup succeeding (it is unreachable for the
source as written, whose method list lacks the name). -/
def perform_review_from_history (platformPresent : Bool) (closed : List RawTrade) : ReviewRun :=
  if !platformPresent then ⟨[], false⟩
  else if closed.isEmpty then ⟨[], false⟩
  else
    let rts := process_trades_for_review closed
    if rts.isEmpty then ⟨[], false⟩
    else if contextManagerMethods.contains "load_reviewed_symbols" then
      ⟨(rts.take 5).map (·.symbol), false⟩
    else ⟨[], true⟩

/-! ## Paged klines (`BinanceClient.get_klines`) -/

/-- Raw kline as held by the exchange; `openTime` and `closeTime` are
millisecond timestamps. -/
structure Kline where
  openTime : ℤ
  closeTime : ℤ
  close : ℚ
deriving Repr, DecidableEq

/-- Parsed candle as built inside `get_klines`: `is_closed` compares the
close time with the observed current instant. -/
structure CandleOut where
  openTime : ℤ
  closeTime : ℤ
  close : ℚ
  is_closed : Bool
deriving Repr, DecidableEq

/-- Candle parsing of one kline row. -/
def toOut (now : ℤ) (k : Kline) : CandleOut :=
  ⟨k.openTime, k.closeTime, k.close, decide (k.closeTime < now)⟩

/-- Exchange semantics of `GET /fapi/v1/klines` with `endTime` and `limit`:
the most recent `lim` klines whose open time is at most `endTime`, in
ascending order.  The client only sends `endTime` when `current_end_time`
is truthy (`if current_end_time:`), so a zero end time means an
unconstrained latest-first fetch. -/
def serverFetch (candles : List Kline) (endTime : ℤ) (lim : ℕ) : List Kline :=
  if endTime = 0 then takeLast candles lim
  else takeLast (candles.filter fun k => decide (k.openTime ≤ endTime)) lim

/-- Observable actions of `get_klines`: one HTTP request per page, and the
`asyncio.sleep(0.1)` between pages. -/
inductive KlineEvent where
  | request (endTime : ℤ) (lim : ℕ)
  | sleep100ms
deriving Repr, DecidableEq

/-- Open time of the first (earliest) kline of a batch, `batch_klines[0]`. -/
def firstOpenTime : List Kline → ℤ
  | [] => 0
  | k :: _ => k.openTime

/-- Paging loop of `get_klines`: request at most 1000, prepend the batch,
walk `endTime` back to the earliest open time minus one, sleep between
pages. -/
def get_klines_loop (candles : List Kline) (now : ℤ) (remaining : ℕ) (currentEnd : ℤ) :
    List CandleOut × List KlineEvent :=
  if h0 : remaining = 0 then ([], [])
  else
    let request_limit := min remaining 1000
    let data := serverFetch candles currentEnd request_limit
    if h1 : data = [] then ([], [.request currentEnd request_limit])
    else
      let batch := data.map (toOut now)
      if data.length < request_limit then (batch, [.request currentEnd request_limit])
      else
        let newEnd := firstOpenTime data - 1
        let remaining' := remaining - data.length
        if remaining' = 0 then (batch, [.request currentEnd request_limit])
        else
          let p := get_klines_loop candles now remaining' newEnd
          (p.1 ++ batch, .request currentEnd request_limit :: .sleep100ms :: p.2)
termination_by remaining
decreasing_by
  simp_wf
  exact ⟨Nat.pos_of_ne_zero h0, List.length_pos.mpr h1⟩

/-- Source `BinanceClient.get_klines`: run the paging loop from
`end_time or now`, optionally strip candles that are not closed, and
truncate to `limit`. -/
def get_klines (candles : List Kline) (now : ℤ) (limit : ℕ) (include_current : Bool)
    (end_time : Option ℤ) : List CandleOut × List KlineEvent :=
  let current_end := match end_time with
    | some e => if e = 0 then now else e
    | none => now
  let p := get_klines_loop candles now limit current_end
  let stripped := if !include_current && !p.1.isEmpty then p.1.filter (·.is_closed) else p.1
  (if limit ≠ 0 then stripped.take limit else stripped, p.2)

/-- The `i`-th hourly demo kline: one-hour candles in milliseconds, open at
`3600000·i + 2`, closed one millisecond before the next open. -/
def demoKline (i : ℕ) : Kline :=
  ⟨3600000 * (i : ℤ) + 2, 3600000 * (i : ℤ) + 3600001, (i : ℚ)⟩

/-- Exchange book of 1600 consecutive hourly candles. -/
def demoKlines : List Kline := (List.range 1600).map demoKline

/-- Observation instant right after the close of the last demo candle, so
all 1600 demo candles are closed. -/
def demoNow : ℤ := 3600000 * 1600 + 2

/-- End time of the second demo page: the open time of the earliest candle
of the first page, minus one millisecond. -/
def demoEnd2 : ℤ := 3600000 * 600 + 1

/-- Five candles of which the last is still open at instant 45. -/
def klines5 : List Kline := [⟨2, 10, 1⟩, ⟨11, 20, 2⟩, ⟨21, 30, 3⟩, ⟨31, 40, 4⟩, ⟨41, 50, 5⟩]

/-! ## Trader (`tradingai/trader/trader.py`)

`Trader` holds the in-memory active-position cache and talks to the
platform.  The platform's observable behaviour is split into an
exchange-side position table (`List ExchangePosition`) and an environment
`Env` fixing the outcome of each fallible call of one `execute_trade` /
`close_position` run; the trace of platform calls is returned as a list
of events. -/

/-- Arguments of one `platform.place_futures_order` call. -/
structure OrderReq where
  symbol : String
  side : String
  position_side : String
  quantity : ℚ
  order_type : String
  stop_price : Option ℚ
  close_position : Bool
deriving Repr, DecidableEq

/-- Platform calls the trader can issue. -/
inductive PlatformEvent where
  | setLeverage (symbol : String) (leverage : ℤ)
  | setMarginType (symbol : String) (margin_type : String)
  | getPosition (symbol : String)
  | placeOrder (req : OrderReq)
  | cancelOrder (symbol : String) (order_id : ℕ)
  | cancelAllOrders (symbol : String)
deriving Repr, DecidableEq

/-- Position row as returned by `platform.get_position`. -/
structure ExchangePosition where
  symbol : String
  position_side : String
  position_amt : ℚ
deriving Repr, DecidableEq

/-- Order dict as returned by `place_futures_order`. -/
structure OrderInfo where
  order_id : ℕ
  symbol : String
  side : String
  position_side : String
  order_type : String
  quantity : ℚ
  stop_price : Option ℚ
deriving Repr, DecidableEq

/-- In-memory state of `Trader`: the active-position cache (symbol to
position side), the tracked protective-order ids, and the balance cache. -/
structure TraderState where
  active_positions : List (String × String)
  active_orders : List (String × (Option ℕ × Option ℕ))
  cached_balance : Option ℚ
  balance_cache_time : Option ℚ
deriving Repr, DecidableEq

/-- Association-list lookup (dict access). -/
def alGet (l : List (String × α)) (k : String) : Option α :=
  (l.find? fun p => p.1 = k).map (·.2)

/-- Association-list overwrite (dict assignment). -/
def alSet (l : List (String × α)) (k : String) (v : α) : List (String × α) :=
  (k, v) :: l.filter fun p => p.1 ≠ k

/-- Association-list removal (Python `del d[k]`). -/
def alDel (l : List (String × α)) (k : String) : List (String × α) :=
  l.filter fun p => p.1 ≠ k

/-- Outcomes of the fallible platform calls during one trader operation:
`getPositionOk = false` means `get_position` raises, `balance_fetch = none`
means `get_balance` raises, the order flags tell whether the corresponding
`place_futures_order` call is accepted, and the error strings are the
exception texts. -/
structure Env where
  getPositionOk : Bool
  balance_fetch : Option ℚ
  entryOk : Bool
  slOk : Bool
  sl_error : String
  tpOk : Bool
  tp_error : String
  closeOk : Bool
  now : ℚ
  next_order_id : ℕ
deriving Repr, DecidableEq

/-- Client `get_position(symbol)`: rows of the requested symbol with nonzero
amount. -/
def get_position_rows (ex : List ExchangePosition) (symbol : String) : List ExchangePosition :=
  ex.filter fun p => p.symbol = symbol && p.position_amt ≠ 0

/-- Source `Trader._check_existing_position`: on a raised `get_position` the
exception is logged and `None` returned; otherwise the first row of this
symbol whose absolute amount exceeds `1e-8`. -/
def check_existing_position (env : Env) (ex : List ExchangePosition) (symbol : String) :
    Option ExchangePosition :=
  if !env.getPositionOk then none
  else (get_position_rows ex symbol).find? fun p =>
    p.symbol = symbol && |p.position_amt| > 1 / 100000000

/-- Freshness test of the balance cache (`use_cache=True`,
`cache_duration=60`); a zero cache timestamp is falsy in Python. -/
def balance_cache_fresh (tr : TraderState) (now : ℚ) : Bool :=
  match tr.cached_balance, tr.balance_cache_time with
  | some _, some t => t ≠ 0 && now - t < 60
  | _, _ => false

/-- Source `Trader._get_account_balance`: fresh cache short-circuits;
otherwise a positive fetched balance is cached and returned, and a raised
call or a non-positive balance falls back to `config.ACCOUNT_BALANCE`. -/
def get_account_balance (tr : TraderState) (env : Env) : ℚ × TraderState :=
  match tr.cached_balance, tr.balance_cache_time with
  | some b, some t =>
    if t ≠ 0 && env.now - t < 60 then (b, tr)
    else
      match env.balance_fetch with
      | some v =>
        if v > 0 then (v, { tr with cached_balance := some v, balance_cache_time := some env.now })
        else (config.ACCOUNT_BALANCE, tr)
      | none => (config.ACCOUNT_BALANCE, tr)
  | _, _ =>
    match env.balance_fetch with
    | some v =>
      if v > 0 then (v, { tr with cached_balance := some v, balance_cache_time := some env.now })
      else (config.ACCOUNT_BALANCE, tr)
    | none => (config.ACCOUNT_BALANCE, tr)

/-- AI analysis dict as consumed by `execute_trade` (fields via `.get`). -/
structure AnalysisResult where
  symbol : Option String
  action : Option String
  confidence : ℚ
  entry_price : Option ℚ
  stop_loss : Option ℚ
  take_profit : Option ℚ
  leverage : Option ℤ
  position_size : Option ℚ
deriving Repr, DecidableEq

/-- Take-profit slot of the result: a placed order, or the
`{"error": str(e)}` marker of a tolerated failure. -/
inductive TPOutcome where
  | placed (o : OrderInfo)
  | failed (error : String)
deriving Repr, DecidableEq

/-- The `orders` entry of an `execute_trade` result. -/
structure TradeOrders where
  entry : Option OrderInfo
  stop_loss : Option OrderInfo
  take_profit : Option TPOutcome
deriving Repr, DecidableEq

/-- The `execute_trade` return dict (the redundant `position` echo of the
inputs is omitted). -/
structure TradeResult where
  success : Bool
  message : String
  orders : TradeOrders
deriving Repr, DecidableEq

/-- Result and post-state of one `execute_trade` run; `balance_used` is the
account balance the sizing and risk checks were evaluated against (none
when the run failed before fetching it). -/
structure ExecOutcome where
  result : TradeResult
  trader : TraderState
  exchange : List ExchangePosition
  events : List PlatformEvent
  balance_used : Option ℚ
deriving Repr, DecidableEq

/-- Empty orders dict. -/
def noOrders : TradeOrders := ⟨none, none, none⟩

/-- Result and post-state of one `close_position` run. -/
structure CloseOutcome where
  success : Bool
  trader : TraderState
  exchange : List ExchangePosition
  events : List PlatformEvent
deriving Repr, DecidableEq

/-- Side filter of the `close_position` loop: `position_side and
position['position_side'] != position_side` skips the row. -/
def closeSideMatch (pside : Option String) (p : ExchangePosition) : Bool :=
  match pside with
  | some s => p.position_side = s
  | none => true

/-- MARKET close-position request for one held position. -/
def closeOrderReq (symbol : String) (p : ExchangePosition) : OrderReq :=
  ⟨symbol, if p.position_side = "LONG" then "SELL" else "BUY", p.position_side, 0, "MARKET",
   none, true⟩

/-- Cancel phase of `close_position`: cancel the tracked stop-loss and
take-profit orders individually, falling back to `cancel_all_orders` when
no id was recorded; failures of the cancels are tolerated. -/
def cancelPhase (tr : TraderState) (symbol : String) : TraderState × List PlatformEvent :=
  match alGet tr.active_orders symbol with
  | none => (tr, [])
  | some (slId, tpId) =>
    let evs₁ := match slId with
      | some i => [PlatformEvent.cancelOrder symbol i]
      | none => []
    let evs₂ := match tpId with
      | some i => [PlatformEvent.cancelOrder symbol i]
      | none => []
    let evs₃ := if slId = none && tpId = none then [PlatformEvent.cancelAllOrders symbol] else []
    ({ tr with active_orders := alDel tr.active_orders symbol }, evs₁ ++ evs₂ ++ evs₃)

/-- Source `Trader.close_position`: market-close every matching position,
then cancel the tracked protective orders, then evict the symbol from the
active-position cache.  A raised `get_position` or a rejected close order
aborts into the `except` handler and returns a failure without touching the
caches. -/
def close_position (tr : TraderState) (ex : List ExchangePosition) (env : Env)
    (symbol : String) (pside : Option String) : CloseOutcome :=
  if !env.getPositionOk then
    ⟨false, tr, ex, [.getPosition symbol]⟩
  else
    match (get_position_rows ex symbol).filter fun p =>
        p.symbol = symbol && closeSideMatch pside p with
    | [] =>
      let c := cancelPhase tr symbol
      ⟨true, { c.1 with active_positions := alDel c.1.active_positions symbol }, ex,
       .getPosition symbol :: c.2⟩
    | p :: rest =>
      if !env.closeOk then
        ⟨false, tr, ex, [.getPosition symbol, .placeOrder (closeOrderReq symbol p)]⟩
      else
        let ex₁ := ex.filter fun q =>
          !(q.symbol = symbol && q.position_amt ≠ 0 && closeSideMatch pside q)
        let c := cancelPhase tr symbol
        ⟨true, { c.1 with active_positions := alDel c.1.active_positions symbol }, ex₁,
         .getPosition symbol ::
           (p :: rest).map (fun q => .placeOrder (closeOrderReq symbol q)) ++ c.2⟩

/-- Validity test of the symbol string: Python
`any(quote in symbol.upper() for quote in ['USDT', 'BUSD', 'USD'])`. -/
def symbolQuoteOk (symbol : String) : Bool :=
  strContains (strUpper symbol) "USDT" || strContains (strUpper symbol) "BUSD" ||
    strContains (strUpper symbol) "USD"

/-- Failure result shared by all early returns of `execute_trade`. -/
def execFail (msg : String) (tr : TraderState) (ex : List ExchangePosition)
    (events : List PlatformEvent) (bal : Option ℚ) : ExecOutcome :=
  ⟨⟨false, msg, noOrders⟩, tr, ex, events, bal⟩

/-- Steps 0–2.3 of `execute_trade`: symbol validation, the 观望/confidence
gate, the exchange position check (step 2.1 only logs a warning), and the
double check with stale-cache eviction.  Either an early-return failure
outcome or the symbol together with the possibly cache-evicted trader state
and the `get_position` call trace so far. -/
def trade_guards (tr : TraderState) (ex : List ExchangePosition) (env : Env)
    (a : AnalysisResult) : Except ExecOutcome (String × TraderState × List PlatformEvent) :=
  match a.symbol with
  | none => .error (execFail "交易对无效" tr ex [] none)
  | some symbol =>
  if symbol = "" then .error (execFail "交易对无效" tr ex [] none)
  else if !symbolQuoteOk symbol then .error (execFail "交易对格式无效" tr ex [] none)
  else if a.action = some "观望" || a.confidence < config.AI_CONFIDENCE_THRESHOLD then
    .error (execFail "观望建议" tr ex [] none)
  else
    match check_existing_position env ex symbol with
    | some p =>
      .error (execFail "已有持仓，无法重复开仓（单向持仓模式）"
        { tr with active_positions := alSet tr.active_positions symbol p.position_side }
        ex [.getPosition symbol] none)
    | none =>
    if (alGet tr.active_positions symbol).isSome then
      match check_existing_position env ex symbol with
      | some _ =>
        .error (execFail "双重检查：确认已有持仓，防止重复开单" tr ex
          [.getPosition symbol, .getPosition symbol] none)
      | none =>
        .ok (symbol, { tr with active_positions := alDel tr.active_positions symbol },
             [.getPosition symbol, .getPosition symbol])
    else .ok (symbol, tr, [.getPosition symbol])

/-- Steps 3.1–3.5 of `execute_trade`: price presence, positivity, side
ordering, and the leverage clamp into [1, 125].  Either the failure message
or (entry, stop, take-profit, leverage). -/
def validate_prices (a : AnalysisResult) : Except String (ℚ × ℚ × ℚ × ℤ) :=
  if !(pyTruthy a.entry_price && pyTruthy a.stop_loss && pyTruthy a.take_profit) then
    .error "缺少必要的交易参数（入场价、止损价、止盈价）"
  else
    match a.entry_price, a.stop_loss, a.take_profit with
    | some entry_price, some stop_loss, some take_profit =>
      if entry_price ≤ 0 || stop_loss ≤ 0 || take_profit ≤ 0 then
        .error "价格无效（必须大于0）"
      else if a.action = some "做多" && stop_loss ≥ entry_price then
        .error "做多止损价格不合理"
      else if a.action = some "做多" && take_profit ≤ entry_price then
        .error "做多止盈价格不合理"
      else if a.action = some "做空" && stop_loss ≤ entry_price then
        .error "做空止损价格不合理"
      else if a.action = some "做空" && take_profit ≥ entry_price then
        .error "做空止盈价格不合理"
      else
        let leverage₀ := a.leverage.getD config.DEFAULT_LEVERAGE
        let leverage := if leverage₀ < 1 || leverage₀ > 125 then config.DEFAULT_LEVERAGE
                        else leverage₀
        .ok (entry_price, stop_loss, take_profit, leverage)
    | _, _, _ => .error "缺少必要的交易参数（入场价、止损价、止盈价）"

/-- Steps 7–7.5 of `execute_trade`: position size (recomputed when absent or
non-positive), the position-value cap with the 1% cushion, the margin check
against 95% of the balance, and the max-loss check.  Either the failure
message or the final position size. -/
def size_position (action : Option String) (account_balance entry_price stop_loss : ℚ)
    (leverage : ℤ) (given_size : Option ℚ) : Except String ℚ :=
  let position_size₀ := match given_size with
    | none => calculate_position_size account_balance config.RISK_PERCENT
                entry_price stop_loss leverage
    | some ps =>
      if ps ≤ 0 then calculate_position_size account_balance config.RISK_PERCENT
                      entry_price stop_loss leverage
      else ps
  if position_size₀ ≤ 0 then .error "仓位大小无效（必须大于0）"
  else
    let position_value₀ := position_size₀ * entry_price
    let max_position_value := account_balance * config.MAX_POSITION_SIZE
    let position_size := if position_value₀ > max_position_value then
        (max_position_value / entry_price) * (99 / 100)
      else position_size₀
    let margin_required := position_size * entry_price / (leverage : ℚ)
    if margin_required > account_balance * (95 / 100) then .error "保证金不足"
    else
      let potential_loss := if action = some "做多" then
          (entry_price - stop_loss) * position_size
        else (stop_loss - entry_price) * position_size
      let risk_percent := potential_loss / account_balance * 100
      if risk_percent > config.MAX_LOSS_PER_TRADE * 100 then .error "风险过大"
      else .ok position_size

/-- Steps 8.1–11 of `execute_trade`: MARKET entry, mandatory STOP_MARKET
stop-loss with the compensating close on failure, tolerated
TAKE_PROFIT_MARKET failure, and the cache update. -/
def place_protective_orders (tr₁ : TraderState) (ex : List ExchangePosition) (env : Env)
    (symbol position_side order_side : String) (position_size stop_loss take_profit : ℚ)
    (events₁ : List PlatformEvent) (account_balance : ℚ) : ExecOutcome :=
  let entryReq : OrderReq :=
    ⟨symbol, order_side, position_side, position_size, "MARKET", none, false⟩
  let events₂ := events₁ ++ [PlatformEvent.placeOrder entryReq]
  if !env.entryOk then
    execFail "入场订单失败" tr₁ ex events₂ (some account_balance)
  else
    let entry_order : OrderInfo :=
      ⟨env.next_order_id, symbol, order_side, position_side, "MARKET", position_size, none⟩
    let amt := if position_side = "LONG" then position_size else -position_size
    let ex₁ := ExchangePosition.mk symbol position_side amt :: ex
    let slReq : OrderReq :=
      ⟨symbol, if position_side = "LONG" then "SELL" else "BUY", position_side,
       0, "STOP_MARKET", some stop_loss, true⟩
    let events₃ := events₂ ++ [PlatformEvent.placeOrder slReq]
    if !env.slOk then
      let c := close_position tr₁ ex₁ env symbol (some position_side)
      ⟨⟨false, "止损订单失败: " ++ env.sl_error ++ "，已尝试平仓",
        ⟨some entry_order, none, none⟩⟩,
       c.trader, c.exchange, events₃ ++ c.events, some account_balance⟩
    else
      let sl_order : OrderInfo :=
        ⟨env.next_order_id + 1, symbol, slReq.side, position_side, "STOP_MARKET",
         0, some stop_loss⟩
      let tpReq : OrderReq :=
        ⟨symbol, if position_side = "LONG" then "SELL" else "BUY", position_side,
         0, "TAKE_PROFIT_MARKET", some take_profit, true⟩
      let events₄ := events₃ ++ [PlatformEvent.placeOrder tpReq]
      let tp_outcome := if env.tpOk then
          TPOutcome.placed ⟨env.next_order_id + 2, symbol, tpReq.side,
            position_side, "TAKE_PROFIT_MARKET", 0, some take_profit⟩
        else TPOutcome.failed env.tp_error
      let tp_id := match tp_outcome with
        | .placed o => some o.order_id
        | .failed _ => none
      let tr₂ : TraderState :=
        { tr₁ with
          active_positions := alSet tr₁.active_positions symbol position_side,
          active_orders := alSet tr₁.active_orders symbol (some sl_order.order_id, tp_id) }
      ⟨⟨true, "交易执行成功", ⟨some entry_order, some sl_order, some tp_outcome⟩⟩,
       tr₂, ex₁, events₄, some account_balance⟩

/-- Source `Trader.execute_trade`, composed from the staged steps in source
order: guards (0–2.3), price validation (3), leverage/margin setup (4),
direction mapping (5), balance fetch (6), sizing and risk checks (7), and
order placement with cache update (8–11). -/
def execute_trade (tr : TraderState) (ex : List ExchangePosition) (env : Env)
    (a : AnalysisResult) : ExecOutcome :=
  match trade_guards tr ex env a with
  | .error o => o
  | .ok (symbol, tr₀, events₀) =>
    match validate_prices a with
    | .error msg => execFail msg tr₀ ex events₀ none
    | .ok (entry_price, stop_loss, take_profit, leverage) =>
      let events₁ := events₀ ++ [PlatformEvent.setLeverage symbol leverage,
                                 .setMarginType symbol "ISOLATED"]
      if a.action = some "做多" ∨ a.action = some "做空" then
        let position_side := if a.action = some "做多" then "LONG" else "SHORT"
        let order_side := if a.action = some "做多" then "BUY" else "SELL"
        let bt := get_account_balance tr₀ env
        match size_position a.action bt.1 entry_price stop_loss leverage a.position_size with
        | .error msg => execFail msg bt.2 ex events₁ (some bt.1)
        | .ok position_size =>
          place_protective_orders bt.2 ex env symbol position_side order_side
            position_size stop_loss take_profit events₁ bt.1
      else execFail "未知的交易方向" tr₀ ex events₁ none

/-- Concrete tickers separating base volume from quote volume: A dominates in
base volume, B dominates in quote volume. -/
def tickerA : Ticker := ⟨"AUSDT", 10, 1, 0⟩

/-- Companion ticker of the C9 counterexample. -/
def tickerB : Ticker := ⟨"BUSDT", 5, 100, 0⟩

/-- Buy fill of the demo round trip used for the C6 failing input. -/
def demoTradeBuy : RawTrade := ⟨"BTCUSDT", 1, 50000, 1, 1, 1000, true, "LONG"⟩

/-- Sell fill of the demo round trip used for the C6 failing input. -/
def demoTradeSell : RawTrade := ⟨"BTCUSDT", 1, 50400, 1, 1, 2000, false, "LONG"⟩

/-- Trader state of the concrete scenarios: empty caches. -/
def emptyTrader : TraderState := ⟨[], [], none, none⟩

/-- Benign environment of the concrete scenarios: every platform call
succeeds, the balance query reports 10000. -/
def demoEnv : Env := ⟨true, some 10000, true, true, "", true, "", true, 0, 7⟩

/-- Analysis with an inverted long stop (stop above entry), violating the
price-ordering invariant. -/
def badOrderAnalysis : AnalysisResult :=
  ⟨some "BTCUSDT", some "做多", 1, some 50000, some 50100, some 50400, some 10, some 1⟩

/-- Valid long analysis of the concrete scenarios (entry 50000, stop 49800,
take-profit 50400, full confidence). -/
def goodAnalysis : AnalysisResult :=
  ⟨some "BTCUSDT", some "做多", 1, some 50000, some 49800, some 50400, some 10, some 1⟩

/-- Environment in which the stop-loss placement raises. -/
def demoEnvSL : Env := ⟨true, some 10000, true, false, "boom", true, "", true, 0, 7⟩

/-- Environment in which only the take-profit placement raises. -/
def demoEnvTP : Env := ⟨true, some 10000, true, true, "", false, "tp boom", true, 0, 7⟩

/-- Trader whose in-memory cache already holds a BTCUSDT long, while the
exchange reports no position. -/
def cachedTrader : TraderState := ⟨[("BTCUSDT", "LONG")], [], none, none⟩

/-! ## Theorems -/

theorem length_ewmFrom (alpha prev : ℚ) (l : List ℚ) :
    (ewmFrom alpha prev l).length = l.length := by
  induction l generalizing prev with
  | nil => rfl
  | cons x xs ih => simp [ewmFrom, ih]

theorem length_ewm (alpha : ℚ) (l : List ℚ) : (ewm alpha l).length = l.length := by
  cases l with
  | nil => rfl
  | cons x xs => simp [ewm, length_ewmFrom]

theorem length_calculate_ema (closes : List ℚ) (period : ℕ) :
    (calculate_ema closes period).length = closes.length := by
  simp [calculate_ema, length_ewm]

theorem isLongPosition_zuoduo : isLongPosition "做多" = true := by decide

theorem isLongPosition_zuokong : isLongPosition "做空" = false := by decide

theorem isLongPosition_long : isLongPosition "long" = true := by decide

theorem isLongPosition_short : isLongPosition "short" = false := by decide

/-- C5: the risk calculator computes the stop loss as entry ∓ k·ATR clamped
at 0, the take profit as entry ± rr·|entry − stop| clamped at 0, and the
position size as (balance·risk%/100) / (|entry − stop|/entry) / entry with
the margin capped at the balance; on balance 10000, ATR 100, entry 50000,
risk 1%, reward ratio 2, multiplier 2, long side it returns stop loss 49800,
take profit 50400 and position size 0.5 coins. -/
theorem C5_risk_calculator :
    (∀ entry atr k : ℚ, calculate_stop_loss entry atr k "做多" = max (entry - k * atr) 0 ∧
      calculate_stop_loss entry atr k "做空" = max (entry + k * atr) 0) ∧
    (∀ entry stop rr : ℚ, calculate_take_profit entry stop rr "做多" =
        max (entry + rr * |entry - stop|) 0 ∧
      calculate_take_profit entry stop rr "做空" = max (entry - rr * |entry - stop|) 0) ∧
    (∀ (balance riskPct entry stop : ℚ) (lev : ℤ),
      |entry - stop| / entry ≠ 0 →
      (balance * (riskPct / 100) / (|entry - stop| / entry) / (lev : ℚ) ≤ balance →
        calculate_position_size balance riskPct entry stop lev =
          balance * (riskPct / 100) / (|entry - stop| / entry) / entry) ∧
      (balance * (riskPct / 100) / (|entry - stop| / entry) / (lev : ℚ) > balance →
        calculate_position_size balance riskPct entry stop lev =
          balance * (lev : ℚ) / entry)) ∧
    calculate_stop_loss 50000 100 2 "做多" = 49800 ∧
    calculate_take_profit 50000 49800 2 "做多" = 50400 ∧
    (∀ lev : ℤ, 3 ≤ lev → lev ≤ 125 →
      calculate_position_size 10000 1 50000 49800 lev = 1 / 2) := by
  refine ⟨?_, ?_, ?_, ?_, ?_, ?_⟩
  · intro entry atr k
    constructor
    · simp [calculate_stop_loss, isLongPosition_zuoduo, mul_comm]
    · simp [calculate_stop_loss, isLongPosition_zuokong, mul_comm]
  · intro entry stop rr
    constructor
    · simp [calculate_take_profit, isLongPosition_zuoduo, mul_comm]
    · simp [calculate_take_profit, isLongPosition_zuokong, mul_comm]
  · intro balance riskPct entry stop lev hd
    constructor
    · intro hle
      rw [calculate_position_size, if_neg hd, if_neg (by exact not_lt.mpr hle)]
    · intro hgt
      rw [calculate_position_size, if_neg hd, if_pos hgt]
  · norm_num [calculate_stop_loss, isLongPosition_zuoduo]
  · norm_num [calculate_take_profit, isLongPosition_zuoduo]
  · intro lev h3 h125
    have hlev : (3 : ℚ) ≤ (lev : ℚ) := by exact_mod_cast h3
    have hlev0 : (0 : ℚ) < (lev : ℚ) := by linarith
    rw [calculate_position_size]
    rw [if_neg (by norm_num)]
    rw [if_neg (by
      simp only [not_lt]
      have h1 : |(50000 : ℚ) - 49800| / 50000 = 1 / 250 := by norm_num
      rw [h1]
      have h2 : (10000 : ℚ) * (1 / 100) / (1 / 250) = 25000 := by norm_num
      rw [h2]
      rw [div_le_iff₀ hlev0]
      nlinarith)]
    norm_num

/-- C5 witness: the positional-size branch of the theorem applied at the
Kelly leverage 10 actually used by the pipeline. -/
theorem C5_risk_calculator_witness :
    calculate_position_size 10000 1 50000 49800 10 = 1 / 2 :=
  C5_risk_calculator.2.2.2.2.2 10 (by norm_num) (by norm_num)

/-- Pointwise recurrence of the adjust=False exponentially weighted mean. -/
theorem ewmFrom_getD (alpha : ℚ) :
    ∀ (l : List ℚ) (prev : ℚ) (i : ℕ), i < l.length →
      (ewmFrom alpha prev l).getD i 0 =
        alpha * l.getD i 0 + (1 - alpha) * ((prev :: ewmFrom alpha prev l).getD i 0)
  | [], _, i, h => by simp at h
  | x :: xs, prev, 0, _ => by simp [ewmFrom]
  | x :: xs, prev, i + 1, h => by
    have ih := ewmFrom_getD alpha xs (alpha * x + (1 - alpha) * prev) i
      (by simpa using Nat.lt_of_succ_lt_succ h)
    simpa [ewmFrom] using ih

/-- C8 counterexample: on the four-candle close series [1,2,3,4] the EMA(3)
output of the pure-Python branch carries a numeric (finite) value at every
position, so the count of finite values is 4, not len − (n−1) = 2 as the
claim demands. -/
theorem C8_ema_counterexample :
    calculate_ema [1, 2, 3, 4] 3 = [1, 3 / 2, 9 / 4, 25 / 8] ∧
    (calculate_ema [1, 2, 3, 4] 3).length = 4 ∧ (4 : ℕ) ≠ 4 - (3 - 1) := by
  refine ⟨?_, ?_, by decide⟩
  · norm_num [calculate_ema, ewm, ewmFrom]
  · rw [length_calculate_ema]
    rfl

/-- C8 amended: the pure-Python EMA(n) defines a finite value at every
position (count of finite values = len, no warm-up), seeded from the first
close with α = 2/(n+1): output₀ = close₀ and outputᵢ₊₁ = α·closeᵢ₊₁ +
(1−α)·outputᵢ. -/
theorem C8_ema_amended (closes : List ℚ) (n : ℕ) :
    (calculate_ema closes n).length = closes.length ∧
    (∀ c cs, closes = c :: cs → (calculate_ema closes n).headD 0 = c) ∧
    (∀ i : ℕ, i + 1 < closes.length →
      (calculate_ema closes n).getD (i + 1) 0 =
        2 / ((n : ℚ) + 1) * closes.getD (i + 1) 0 +
          (1 - 2 / ((n : ℚ) + 1)) * (calculate_ema closes n).getD i 0) := by
  refine ⟨length_calculate_ema closes n, ?_, ?_⟩
  · intro c cs hc
    subst hc
    simp [calculate_ema, ewm]
  · intro i h
    match closes, h with
    | c :: cs, h =>
      have hlen : i < cs.length := by simpa using Nat.lt_of_succ_lt_succ h
      have := ewmFrom_getD (2 / ((n : ℚ) + 1)) cs c i hlen
      simp only [calculate_ema, ewm, List.getD_cons_succ]
      rw [this]

/-- C8 amended witness: the recurrence instantiated on the concrete series
[1,2,3,4] with n = 3 at position 1. -/
theorem C8_ema_amended_witness :
    (calculate_ema [1, 2, 3, 4] 3).getD 1 0 =
      2 / ((3 : ℚ) + 1) * ([1, 2, 3, 4] : List ℚ).getD 1 0 +
        (1 - 2 / ((3 : ℚ) + 1)) * (calculate_ema [1, 2, 3, 4] 3).getD 0 0 :=
  (C8_ema_amended [1, 2, 3, 4] 3).2.2 0 (by norm_num)

/-- C9 counterexample: the scanner's volume ranking keys on the base-asset
`volume` field, so with a snapshot where quote volumes are ranked the other
way round the top-1 is not the quote-volume leader the claim promises. -/
theorem C9_volume_counterexample :
    get_top_volume [tickerA, tickerB] 1 "USDT" = [tickerA] ∧
    tickerA.quote_volume < tickerB.quote_volume ∧
    tickerB.volume < tickerA.volume := by
  refine ⟨?_, by norm_num [tickerA, tickerB], by norm_num [tickerA, tickerB]⟩
  have hf : ([tickerA, tickerB].filter fun t =>
      decide (get_quote t.symbol = some (strUpper "USDT"))) = [tickerA, tickerB] := by decide
  simp only [get_top_volume]
  rw [hf]
  norm_num [tickerA, tickerB, List.mergeSort, List.merge]

/-- C9 amended: the ranking sorts the quote-filtered snapshot by the
base-asset volume field in descending order (stably) and returns the first
N: the output is descending in `volume`, is a permutation of a
sub-selection of the filtered snapshot, and has length min N (filtered
count). -/
theorem C9_volume_amended (tickers : List Ticker) (top_n : ℕ) (quote : String) :
    (get_top_volume tickers top_n quote).Pairwise (fun a b => b.volume ≤ a.volume) ∧
    (get_top_volume tickers top_n quote).Subperm
      (tickers.filter fun t => get_quote t.symbol = some (strUpper quote)) ∧
    (get_top_volume tickers top_n quote).length =
      min top_n (tickers.filter fun t => get_quote t.symbol = some (strUpper quote)).length := by
  refine ⟨?_, ?_, ?_⟩
  · have hs := @List.sorted_mergeSort Ticker
      (fun a b : Ticker => decide (b.volume ≤ a.volume))
      (fun a b c hab hbc => by
        simp only [decide_eq_true_eq] at hab hbc ⊢
        exact le_trans hbc hab)
      (fun a b => by
        simp only [Bool.or_eq_true, decide_eq_true_eq]
        exact le_total b.volume a.volume)
      (tickers.filter fun t => get_quote t.symbol = some (strUpper quote))
    exact List.Pairwise.sublist (List.take_sublist _ _)
      (hs.imp (by simp only [decide_eq_true_eq]; exact fun h => h))
  · simp only [get_top_volume]
    exact List.Subperm.trans (List.take_sublist _ _).subperm
      (List.mergeSort_perm _ _).subperm
  · rw [get_top_volume]
    simp [List.length_take, List.length_mergeSort]

/-- C3: in `BinanceClient._request` the status check, the HTTP-400
signature-error diagnostics and the `return await resp.json()` sit inside
the unsigned `else:` branch; a signed request therefore returns Python
`None` whatever the HTTP status — an HTTP 400 signature error is swallowed
instead of raised, and a status-200 signed request does not return the
parsed JSON body.  Only network/timeout failures raise, and only the
unsigned path surfaces HTTP errors.  The claim is right about the intended
behaviour (the diagnostics block itself reads the signed-only `timestamp`
parameter), the code is a mis-indentation slip. -/
theorem C3_signed_request_code_bug :
    binance_request true (.ok 400 "Signature for this request is not valid." true) = .ok none ∧
    binance_request true (.ok 200 "availableBalance 100" true) = .ok none ∧
    binance_request false (.ok 400 "Signature for this request is not valid." true) =
      .error "API Error 400: Signature for this request is not valid." ∧
    binance_request false (.ok 200 "availableBalance 100" true) =
      .ok (some "availableBalance 100") ∧
    binance_request true .timeout = .error "请求超时 - API无响应" ∧
    binance_request true (.clientError "connection reset") =
      .error "网络错误: connection reset" := by
  exact ⟨rfl, rfl, rfl, rfl, rfl, rfl⟩

/-- C6: `main.perform_review_from_history` calls
`context_manager.load_reviewed_symbols()` (and later `is_symbol_reviewed` /
`save_reviewed_symbol`), but `ContextManager` defines none of them and no
`reviewed_symbols.json` handling exists anywhere in the source; the
`AttributeError` is swallowed by the surrounding `except`, so even a
complete paired round trip is never reviewed and no reviewed-symbols set is
ever persisted or reloaded.  The claimed per-day dedup cannot occur because
no review ever occurs. -/
theorem C6_review_dedup_code_bug :
    contextManagerMethods.contains "load_reviewed_symbols" = false ∧
    process_trades_for_review [demoTradeBuy, demoTradeSell] =
      [⟨"BTCUSDT", "做多", 50000, 50400, 398⟩] ∧
    perform_review_from_history true [demoTradeBuy, demoTradeSell] = ⟨[], true⟩ := by
  have hkeys : dedupKeys ([demoTradeBuy, demoTradeSell].map tradeKey) = ["BTCUSDT_1"] := by
    decide
  have hfilter : ([demoTradeBuy, demoTradeSell].filter fun t => tradeKey t = "BTCUSDT_1") =
      [demoTradeBuy, demoTradeSell] := by decide
  have hpair : pairGroup [demoTradeBuy, demoTradeSell] =
      some ⟨"BTCUSDT", "做多", 50000, 50400, 398⟩ := by
    norm_num [pairGroup, List.mergeSort, List.merge, demoTradeBuy, demoTradeSell]
  have hp : process_trades_for_review [demoTradeBuy, demoTradeSell] =
      [⟨"BTCUSDT", "做多", 50000, 50400, 398⟩] := by
    simp only [process_trades_for_review]
    rw [hkeys]
    simp only [List.filterMap]
    rw [hfilter, hpair]
  have hm : "load_reviewed_symbols" ∉ contextManagerMethods := by decide
  refine ⟨by decide, hp, ?_⟩
  simp [perform_review_from_history, hp, hm]

/-- Looking up a key right after deleting it fails. -/
theorem alGet_alDel (l : List (String × α)) (k : String) : alGet (alDel l k) k = none := by
  have hf : List.find? (fun p => decide (p.1 = k)) (alDel l k) = none := by
    rw [List.find?_eq_none]
    intro p hp
    have h2 := (List.mem_filter.mp hp).2
    simp only [decide_eq_true_eq] at h2 ⊢
    simpa using h2
  simp [alGet, hf]

/-- Looking up a key right after setting it returns the new value. -/
theorem alGet_alSet (l : List (String × α)) (k : String) (v : α) :
    alGet (alSet l k v) k = some v := by
  simp [alGet, alSet, List.find?]

/-- Fallback behaviour of the balance fetch: with a stale or empty cache, a
raised query or a non-positive balance yields the configured default. -/
theorem get_account_balance_default (tr : TraderState) (env : Env)
    (hfresh : balance_cache_fresh tr env.now = false)
    (hfail : env.balance_fetch = none ∨ ∃ v, env.balance_fetch = some v ∧ v ≤ 0) :
    (get_account_balance tr env).1 = config.ACCOUNT_BALANCE := by
  rcases hfail with hnone | ⟨v, hv, hvle⟩
  · unfold get_account_balance
    unfold balance_cache_fresh at hfresh
    rcases hb : tr.cached_balance with _ | b <;> rcases ht : tr.balance_cache_time with _ | t <;>
      simp only [hb, ht, hnone] at hfresh ⊢
    rw [if_neg fun h => by rw [h] at hfresh; exact Bool.noConfusion hfresh]
  · have hvgt : ¬v > 0 := by linarith
    unfold get_account_balance
    unfold balance_cache_fresh at hfresh
    rcases hb : tr.cached_balance with _ | b <;> rcases ht : tr.balance_cache_time with _ | t <;>
      simp only [hb, ht, hv] at hfresh ⊢
    · rw [if_neg hvgt]
    · rw [if_neg hvgt]
    · rw [if_neg hvgt]
    · rw [if_neg fun h => by rw [h] at hfresh; exact Bool.noConfusion hfresh, if_neg hvgt]

/-- The balance-cache freshness test ignores the position caches. -/
theorem balance_cache_fresh_set_positions (tr : TraderState) (x : List (String × String))
    (now : ℚ) :
    balance_cache_fresh { tr with active_positions := x } now = balance_cache_fresh tr now := rfl

/-- Every early-return failure of the guard phase happens before the balance
fetch. -/
theorem trade_guards_error_balance_used {tr : TraderState} {ex : List ExchangePosition}
    {env : Env} {a : AnalysisResult} {o : ExecOutcome}
    (h : trade_guards tr ex env a = .error o) : o.balance_used = none := by
  unfold trade_guards at h
  repeat' split at h
  all_goals first
    | exact Except.noConfusion h
    | (injection h with h2; rw [← h2]; rfl)

/-- The guard phase never touches the balance cache: the trader state it
hands on carries the caller's cached balance and cache time. -/
theorem trade_guards_ok_balance_fields {tr : TraderState} {ex : List ExchangePosition}
    {env : Env} {a : AnalysisResult} {sym : String} {tr₀ : TraderState}
    {evs : List PlatformEvent}
    (h : trade_guards tr ex env a = .ok (sym, tr₀, evs)) :
    tr₀.cached_balance = tr.cached_balance ∧ tr₀.balance_cache_time = tr.balance_cache_time := by
  unfold trade_guards at h
  repeat' split at h
  all_goals try exact Except.noConfusion h
  all_goals
    injection h with h2
    injection h2 with h3 h4
    injection h4 with h5 h6
    rw [← h5]
    exact ⟨rfl, rfl⟩

/-- The order-placement phase reports exactly the balance it was given. -/
theorem place_protective_orders_balance_used (tr₁ : TraderState) (ex : List ExchangePosition)
    (env : Env) (symbol position_side order_side : String)
    (position_size stop_loss take_profit : ℚ) (events₁ : List PlatformEvent)
    (account_balance : ℚ) :
    (place_protective_orders tr₁ ex env symbol position_side order_side position_size
      stop_loss take_profit events₁ account_balance).balance_used = some account_balance := by
  unfold place_protective_orders
  repeat' split
  all_goals rfl

/-- C10: whenever the exchange balance query raises or reports a balance ≤ 0
(and no fresh cached balance short-circuits the query), `_get_account_balance`
returns the configured `ACCOUNT_BALANCE` (10000 by default), and the balance
`execute_trade` then sizes and risk-checks against is exactly that configured
value. -/
theorem C10_balance_fallback :
    config.ACCOUNT_BALANCE = 10000 ∧
    (∀ (tr : TraderState) (env : Env),
      balance_cache_fresh tr env.now = false →
      (env.balance_fetch = none ∨ ∃ v, env.balance_fetch = some v ∧ v ≤ 0) →
      (get_account_balance tr env).1 = config.ACCOUNT_BALANCE) ∧
    (∀ (tr : TraderState) (ex : List ExchangePosition) (env : Env) (a : AnalysisResult) (b : ℚ),
      balance_cache_fresh tr env.now = false →
      (env.balance_fetch = none ∨ ∃ v, env.balance_fetch = some v ∧ v ≤ 0) →
      (execute_trade tr ex env a).balance_used = some b →
      b = config.ACCOUNT_BALANCE) := by
  refine ⟨rfl, fun tr env h1 h2 => get_account_balance_default tr env h1 h2, ?_⟩
  intro tr ex env a b hfresh hfail hbal
  have key : ∀ tr' : TraderState, tr'.cached_balance = tr.cached_balance →
      tr'.balance_cache_time = tr.balance_cache_time →
      (get_account_balance tr' env).1 = config.ACCOUNT_BALANCE := by
    intro tr' h1 h2
    refine get_account_balance_default tr' env ?_ hfail
    unfold balance_cache_fresh at hfresh ⊢
    rw [h1, h2]
    exact hfresh
  simp only [execute_trade] at hbal
  split at hbal
  · rename_i o heq
    rw [trade_guards_error_balance_used heq] at hbal
    exact Option.noConfusion hbal
  · rename_i symtr heq
    obtain ⟨hc, ht⟩ := trade_guards_ok_balance_fields heq
    split at hbal
    · exact Option.noConfusion hbal
    · split at hbal
      · split at hbal
        · simp only [execFail] at hbal
          injection hbal with hb2
          rw [← hb2]
          exact key _ hc ht
        · rw [place_protective_orders_balance_used] at hbal
          injection hbal with hb2
          rw [← hb2]
          exact key _ hc ht
      · exact Option.noConfusion hbal

/-- C10 witness: a concrete raised balance query during a trade evaluates
sizing against the configured 10000. -/
theorem C10_balance_fallback_witness :
    (get_account_balance ⟨[], [], none, none⟩
        ⟨true, none, true, true, "", true, "", true, 0, 1⟩).1 = config.ACCOUNT_BALANCE :=
  C10_balance_fallback.2.1 ⟨[], [], none, none⟩ ⟨true, none, true, true, "", true, "", true, 0, 1⟩
    rfl (Or.inl rfl)

/-- The guard phase issues no orders: its trace holds `get_position` calls
only. -/
theorem trade_guards_ok_no_orders {tr : TraderState} {ex : List ExchangePosition}
    {env : Env} {a : AnalysisResult} {sym : String} {tr₀ : TraderState}
    {evs : List PlatformEvent}
    (h : trade_guards tr ex env a = .ok (sym, tr₀, evs)) :
    ∀ req, PlatformEvent.placeOrder req ∉ evs := by
  unfold trade_guards at h
  repeat' split at h
  all_goals try exact Except.noConfusion h
  all_goals
    injection h with h2
    injection h2 with h3 h4
    injection h4 with h5 h6
    rw [← h6]
    intro req
    simp

/-- A validated price triple is present, positive, and ordered for the
trade's side. -/
theorem validate_prices_ok_props {a : AnalysisResult} {e sl tp : ℚ} {lev : ℤ}
    (h : validate_prices a = .ok (e, sl, tp, lev)) :
    a.entry_price = some e ∧ a.stop_loss = some sl ∧ a.take_profit = some tp ∧
    0 < e ∧ 0 < sl ∧ 0 < tp ∧
    (a.action = some "做多" → sl < e ∧ e < tp) ∧
    (a.action = some "做空" → tp < e ∧ e < sl) := by
  unfold validate_prices at h
  repeat' split at h
  all_goals try exact Except.noConfusion h
  rename_i hmiss heq1 heq2 heq3 hpos hlsl hltp hssl hstp
  injection h with h2
  injection h2 with hev h3
  injection h3 with hsv h4
  injection h4 with htv h5
  subst hev hsv htv
  simp only [Bool.or_eq_true, decide_eq_true_eq, not_or] at hpos
  simp only [Bool.and_eq_true, decide_eq_true_eq, not_and] at hlsl hltp hssl hstp
  obtain ⟨⟨hne, hns⟩, hnt⟩ := hpos
  refine ⟨heq1, heq2, heq3, not_le.mp hne, not_le.mp hns, not_le.mp hnt, ?_, ?_⟩
  · intro hact
    exact ⟨not_le.mp (hlsl hact), not_le.mp (hltp hact)⟩
  · intro hact
    exact ⟨not_le.mp (hstp hact), not_le.mp (hssl hact)⟩

/-- C4: once a trade request passes the duplicate-position guards,
`execute_trade` validates the price triple before any exchange order is
sent: entry, stop-loss and take-profit must be positive and ordered as
stopLoss < entry < takeProfit for a 做多 (long) trade and takeProfit <
entry < stopLoss for a 做空 (short) trade; every violating analysis yields
a failure result with no order request ever placed.  (Prices are modelled
as rationals, so every value is finite; IEEE NaN corner cases live outside
the embedding.) -/
theorem C4_price_validation (tr : TraderState) (ex : List ExchangePosition) (env : Env)
    (a : AnalysisResult) (sym : String) (tr₀ : TraderState) (evs : List PlatformEvent)
    (e sl tp : ℚ)
    (hg : trade_guards tr ex env a = .ok (sym, tr₀, evs))
    (hact : a.action = some "做多" ∨ a.action = some "做空")
    (he : a.entry_price = some e) (hs : a.stop_loss = some sl) (ht : a.take_profit = some tp)
    (hviol : ¬(0 < e ∧ 0 < sl ∧ 0 < tp ∧
      (a.action = some "做多" → sl < e ∧ e < tp) ∧
      (a.action = some "做空" → tp < e ∧ e < sl))) :
    (execute_trade tr ex env a).result.success = false ∧
    ∀ req, PlatformEvent.placeOrder req ∉ (execute_trade tr ex env a).events := by
  rcases hv : validate_prices a with m | v
  · simp only [execute_trade, hg, hv]
    exact ⟨rfl, trade_guards_ok_no_orders hg⟩
  · exfalso
    obtain ⟨e', sl', tp', lev'⟩ := v
    obtain ⟨he', hs', ht', hpe, hps, hpt, hlong, hshort⟩ := validate_prices_ok_props hv
    rw [he] at he'
    rw [hs] at hs'
    rw [ht] at ht'
    injection he' with he2
    injection hs' with hs2
    injection ht' with ht2
    subst he2 hs2 ht2
    exact hviol ⟨hpe, hps, hpt, hlong, hshort⟩

/-- C4 witness: the inverted long stop is rejected with no order placed. -/
theorem C4_price_validation_witness :
    (execute_trade emptyTrader [] demoEnv badOrderAnalysis).result.success = false ∧
    ∀ req, PlatformEvent.placeOrder req ∉
      (execute_trade emptyTrader [] demoEnv badOrderAnalysis).events := by
  refine C4_price_validation emptyTrader [] demoEnv badOrderAnalysis "BTCUSDT" emptyTrader
    [.getPosition "BTCUSDT"] 50000 50100 50400 ?_ (Or.inl rfl) rfl rfl rfl ?_
  · have hq : symbolQuoteOk "BTCUSDT" = true := by decide
    norm_num [trade_guards, badOrderAnalysis, hq, check_existing_position, get_position_rows,
      alGet, emptyTrader, demoEnv, config.AI_CONFIDENCE_THRESHOLD, List.find?]
    rw [if_neg (by decide : ¬("BTCUSDT" = "")), if_neg (by decide : ¬(("做多" : String) = "观望"))]
  · intro hcon
    have h1 := (hcon.2.2.2.1 rfl).1
    norm_num at h1

/-- After a raised-free `close_position` the symbol is out of the
active-position cache, and when the exchange still held a matching position
a compensating MARKET close-position order for it is in the trace (whether
or not the close order itself was accepted). -/
theorem close_position_clears {tr : TraderState} {ex : List ExchangePosition} {env : Env}
    {sym : String} {pside : Option String} {pos : ExchangePosition}
    (hgp : env.getPositionOk = true)
    (hsym : pos.symbol = sym) (hamt : pos.position_amt ≠ 0)
    (hside : closeSideMatch pside pos = true)
    (hcache : alGet tr.active_positions sym = none) :
    PlatformEvent.placeOrder (closeOrderReq sym pos) ∈
      (close_position tr (pos :: ex) env sym pside).events ∧
    alGet (close_position tr (pos :: ex) env sym pside).trader.active_positions sym = none := by
  have hpred1 : (fun p : ExchangePosition => p.symbol = sym && p.position_amt ≠ 0) pos = true := by
    simp [hsym, hamt]
  have hrows : get_position_rows (pos :: ex) sym = pos :: get_position_rows ex sym := by
    unfold get_position_rows
    rw [List.filter_cons, if_pos hpred1]
  have hpred2 : (fun p : ExchangePosition => p.symbol = sym && closeSideMatch pside p) pos
      = true := by simp [hsym, hside]
  unfold close_position
  rw [hgp]
  simp only [Bool.not_true]
  rw [if_neg (by simp)]
  rw [hrows, List.filter_cons, if_pos hpred2]
  split
  · rename_i heq
    exact absurd heq (List.cons_ne_nil _ _)
  · rename_i p' rest' heq
    injection heq with hp hrest
    subst hp
    split
    · exact ⟨by simp, hcache⟩
    · exact ⟨by simp, alGet_alDel _ _⟩

/-- The balance fetch never touches the active-position cache. -/
theorem get_account_balance_active (tr : TraderState) (env : Env) :
    (get_account_balance tr env).2.active_positions = tr.active_positions := by
  unfold get_account_balance
  repeat' split
  all_goals rfl

/-- The guard phase hands on a cache without the symbol (either it was never
there, or the stale entry was evicted at step 2.3). -/
theorem trade_guards_ok_no_symbol {tr : TraderState} {ex : List ExchangePosition}
    {env : Env} {a : AnalysisResult} {sym : String} {tr₀ : TraderState}
    {evs : List PlatformEvent}
    (h : trade_guards tr ex env a = .ok (sym, tr₀, evs)) :
    alGet tr₀.active_positions sym = none := by
  unfold trade_guards at h
  repeat' split at h
  all_goals try exact Except.noConfusion h
  all_goals
    injection h with h2
    injection h2 with h3 h4
    injection h4 with h5 h6
    rw [← h5, ← h3]
  · exact alGet_alDel _ _
  · rename_i hns
    cases halg : alGet tr.active_positions _ with
    | none => rfl
    | some v => rw [halg] at hns; simp at hns

/-- SL-failure path of the order-placement phase: failure result carrying
the stop-loss error with the entry order attached, a compensating MARKET
close in the trace, and the symbol absent from the active-position cache. -/
theorem place_orders_sl_failure (tr₁ : TraderState) (ex : List ExchangePosition) (env : Env)
    (symbol position_side order_side : String) (size sl tp : ℚ)
    (evs : List PlatformEvent) (bal : ℚ)
    (hentry : env.entryOk = true) (hsl : env.slOk = false) (hgp : env.getPositionOk = true)
    (hsize : size ≠ 0) (hpside : position_side = "LONG" ∨ position_side = "SHORT")
    (hcache : alGet tr₁.active_positions symbol = none) :
    (place_protective_orders tr₁ ex env symbol position_side order_side size sl tp
        evs bal).result.success = false ∧
    (place_protective_orders tr₁ ex env symbol position_side order_side size sl tp
        evs bal).result.message = "止损订单失败: " ++ env.sl_error ++ "，已尝试平仓" ∧
    (place_protective_orders tr₁ ex env symbol position_side order_side size sl tp
        evs bal).result.orders.entry =
      some ⟨env.next_order_id, symbol, order_side, position_side, "MARKET", size, none⟩ ∧
    (place_protective_orders tr₁ ex env symbol position_side order_side size sl tp
        evs bal).result.orders.stop_loss = none ∧
    (∃ req : OrderReq, req.order_type = "MARKET" ∧ req.close_position = true ∧
      req.symbol = symbol ∧ PlatformEvent.placeOrder req ∈
        (place_protective_orders tr₁ ex env symbol position_side order_side size sl tp
          evs bal).events) ∧
    alGet (place_protective_orders tr₁ ex env symbol position_side order_side size sl tp
        evs bal).trader.active_positions symbol = none := by
  have hamt : (if position_side = "LONG" then size else -size) ≠ 0 := by
    split <;> simpa using hsize
  have hclose := @close_position_clears tr₁ ex env symbol (some position_side)
    ⟨symbol, position_side, if position_side = "LONG" then size else -size⟩
    hgp rfl hamt (by simp [closeSideMatch]) hcache
  simp only [place_protective_orders, hentry, hsl, Bool.not_true, Bool.not_false, reduceIte]
  refine ⟨rfl, rfl, rfl, rfl, ?_, hclose.2⟩
  exact ⟨closeOrderReq symbol
    ⟨symbol, position_side, if position_side = "LONG" then size else -size⟩,
    rfl, rfl, rfl, List.mem_append.mpr (Or.inr hclose.1)⟩

/-- TP-failure path of the order-placement phase: the position is kept and
the call still succeeds, with the `error` marker in the take-profit slot. -/
theorem place_orders_tp_failure (tr₁ : TraderState) (ex : List ExchangePosition) (env : Env)
    (symbol position_side order_side : String) (size sl tp : ℚ)
    (evs : List PlatformEvent) (bal : ℚ)
    (hentry : env.entryOk = true) (hsl : env.slOk = true) (htp : env.tpOk = false) :
    (place_protective_orders tr₁ ex env symbol position_side order_side size sl tp
        evs bal).result.success = true ∧
    (place_protective_orders tr₁ ex env symbol position_side order_side size sl tp
        evs bal).result.orders.take_profit = some (.failed env.tp_error) := by
  simp only [place_protective_orders, hentry, hsl, htp, Bool.not_true, Bool.not_false,
    reduceIte]
  exact ⟨rfl, rfl⟩

/-- C2: when the STOP_MARKET stop-loss placement raises after the entry
order was accepted, `execute_trade` immediately attempts a compensating
MARKET close of the just-opened position and returns a failure result that
carries the stop-loss error with the entry order in the result's `orders`,
and the active-position cache does not contain the symbol afterwards;
whereas a TAKE_PROFIT_MARKET failure alone still yields a success result
(with the error marker in the take-profit slot). -/
theorem C2_sl_failure_compensating_close (tr : TraderState) (ex : List ExchangePosition)
    (env : Env) (a : AnalysisResult) (sym : String) (tr₀ : TraderState)
    (evs : List PlatformEvent) (e sl tp : ℚ) (lev : ℤ) (size : ℚ)
    (hg : trade_guards tr ex env a = .ok (sym, tr₀, evs))
    (hv : validate_prices a = .ok (e, sl, tp, lev))
    (hact : a.action = some "做多" ∨ a.action = some "做空")
    (hsz : size_position a.action (get_account_balance tr₀ env).1 e sl lev a.position_size =
      .ok size)
    (hsize : size ≠ 0) (hgp : env.getPositionOk = true) (hentry : env.entryOk = true) :
    (env.slOk = false →
      (execute_trade tr ex env a).result.success = false ∧
      (execute_trade tr ex env a).result.message =
        "止损订单失败: " ++ env.sl_error ++ "，已尝试平仓" ∧
      (execute_trade tr ex env a).result.orders.entry ≠ none ∧
      (execute_trade tr ex env a).result.orders.stop_loss = none ∧
      (∃ req : OrderReq, req.order_type = "MARKET" ∧ req.close_position = true ∧
        req.symbol = sym ∧ PlatformEvent.placeOrder req ∈ (execute_trade tr ex env a).events) ∧
      alGet (execute_trade tr ex env a).trader.active_positions sym = none) ∧
    (env.slOk = true → env.tpOk = false →
      (execute_trade tr ex env a).result.success = true ∧
      (execute_trade tr ex env a).result.orders.take_profit = some (.failed env.tp_error)) := by
  have hcache : alGet (get_account_balance tr₀ env).2.active_positions sym = none := by
    rw [get_account_balance_active]
    exact trade_guards_ok_no_symbol hg
  have hexec : execute_trade tr ex env a =
      place_protective_orders (get_account_balance tr₀ env).2 ex env sym
        (if a.action = some "做多" then "LONG" else "SHORT")
        (if a.action = some "做多" then "BUY" else "SELL") size sl tp
        (evs ++ [PlatformEvent.setLeverage sym lev, .setMarginType sym "ISOLATED"])
        (get_account_balance tr₀ env).1 := by
    simp only [execute_trade, hg, hv, hsz, if_pos hact]
  constructor
  · intro hslF
    rw [hexec]
    have := place_orders_sl_failure (get_account_balance tr₀ env).2 ex env sym
      (if a.action = some "做多" then "LONG" else "SHORT")
      (if a.action = some "做多" then "BUY" else "SELL") size sl tp
      (evs ++ [PlatformEvent.setLeverage sym lev, .setMarginType sym "ISOLATED"])
      (get_account_balance tr₀ env).1 hentry hslF hgp hsize (by split <;> simp) hcache
    exact ⟨this.1, this.2.1, by rw [this.2.2.1]; simp, this.2.2.2.1, this.2.2.2.2.1,
      this.2.2.2.2.2⟩
  · intro hslT htpF
    rw [hexec]
    exact place_orders_tp_failure _ ex env sym _ _ size sl tp _ _ hentry hslT htpF

/-- Guard-phase evaluation on the demo analysis over an empty book. -/
theorem trade_guards_demo (env : Env) (hgp : env.getPositionOk = true) :
    trade_guards emptyTrader [] env goodAnalysis =
      .ok ("BTCUSDT", emptyTrader, [.getPosition "BTCUSDT"]) := by
  have hq : symbolQuoteOk "BTCUSDT" = true := by decide
  norm_num [trade_guards, goodAnalysis, hq, check_existing_position, get_position_rows,
    alGet, emptyTrader, config.AI_CONFIDENCE_THRESHOLD, List.find?, hgp]
  simp

/-- Validation-phase evaluation on the demo analysis. -/
theorem validate_prices_demo :
    validate_prices goodAnalysis = .ok (50000, 49800, 50400, 10) := by
  norm_num [validate_prices, goodAnalysis, pyTruthy, config.DEFAULT_LEVERAGE]
  simp

/-- Balance-phase evaluation: the demo environments report 10000. -/
theorem get_account_balance_demo (env : Env) (hb : env.balance_fetch = some 10000) :
    (get_account_balance emptyTrader env).1 = 10000 := by
  norm_num [get_account_balance, emptyTrader, hb]

/-- Sizing-phase evaluation on the demo analysis: the one-coin request is
capped to 0.0594 coins by the 30% position-value cap. -/
theorem size_position_demo (env : Env) (hb : env.balance_fetch = some 10000) :
    size_position goodAnalysis.action (get_account_balance emptyTrader env).1
      50000 49800 10 goodAnalysis.position_size = .ok (297 / 5000) := by
  rw [get_account_balance_demo env hb]
  norm_num [size_position, goodAnalysis, config.MAX_POSITION_SIZE, config.MAX_LOSS_PER_TRADE,
    config.RISK_PERCENT]

/-- C2 witness: the theorem applied in the stop-loss-failure environment and
in the take-profit-failure environment. -/
theorem C2_sl_failure_witness :
    ((execute_trade emptyTrader [] demoEnvSL goodAnalysis).result.success = false ∧
      (execute_trade emptyTrader [] demoEnvSL goodAnalysis).result.message =
        "止损订单失败: boom，已尝试平仓") ∧
    (execute_trade emptyTrader [] demoEnvTP goodAnalysis).result.success = true := by
  have h1 := C2_sl_failure_compensating_close emptyTrader [] demoEnvSL goodAnalysis
    "BTCUSDT" emptyTrader [.getPosition "BTCUSDT"] 50000 49800 50400 10 (297 / 5000)
    (trade_guards_demo demoEnvSL rfl) validate_prices_demo (Or.inl rfl)
    (size_position_demo demoEnvSL rfl) (by norm_num) rfl rfl
  have h2 := C2_sl_failure_compensating_close emptyTrader [] demoEnvTP goodAnalysis
    "BTCUSDT" emptyTrader [.getPosition "BTCUSDT"] 50000 49800 50400 10 (297 / 5000)
    (trade_guards_demo demoEnvTP rfl) validate_prices_demo (Or.inl rfl)
    (size_position_demo demoEnvTP rfl) (by norm_num) rfl rfl
  exact ⟨⟨(h1.1 rfl).1, (h1.1 rfl).2.1⟩, (h2.2 rfl rfl).1⟩

/-- Success path of the order-placement phase: the success result, the
MARKET entry request in the trace, the cache entry, and the new exchange
position. -/
theorem place_orders_success_shape (tr₁ : TraderState) (ex : List ExchangePosition) (env : Env)
    (symbol position_side order_side : String) (size sl tp : ℚ)
    (evs : List PlatformEvent) (bal : ℚ)
    (hentry : env.entryOk = true) (hsl : env.slOk = true) :
    (place_protective_orders tr₁ ex env symbol position_side order_side size sl tp
        evs bal).result.success = true ∧
    PlatformEvent.placeOrder ⟨symbol, order_side, position_side, size, "MARKET", none, false⟩ ∈
      (place_protective_orders tr₁ ex env symbol position_side order_side size sl tp
        evs bal).events ∧
    alGet (place_protective_orders tr₁ ex env symbol position_side order_side size sl tp
        evs bal).trader.active_positions symbol = some position_side ∧
    (place_protective_orders tr₁ ex env symbol position_side order_side size sl tp
        evs bal).exchange =
      ⟨symbol, position_side, if position_side = "LONG" then size else -size⟩ :: ex := by
  simp only [place_protective_orders, hentry, hsl, Bool.not_true, Bool.not_false, reduceIte]
  refine ⟨rfl, ?_, alGet_alSet _ _ _, rfl⟩
  simp

/-- When the exchange reports an existing position, the guard phase blocks
the trade with the duplicate-open failure (provided the basic symbol,
action and confidence gates have already passed). -/
theorem execute_trade_blocked_by_exchange (tr : TraderState) (ex : List ExchangePosition)
    (env : Env) (a : AnalysisResult) (sym : String) (p : ExchangePosition)
    (hsym : a.symbol = some sym) (hne : sym ≠ "") (hq : symbolQuoteOk sym = true)
    (hact : a.action ≠ some "观望")
    (hconf : config.AI_CONFIDENCE_THRESHOLD ≤ a.confidence)
    (hcheck : check_existing_position env ex sym = some p) :
    (execute_trade tr ex env a).result.success = false ∧
    (execute_trade tr ex env a).result.message = "已有持仓，无法重复开仓（单向持仓模式）" ∧
    (∀ req, PlatformEvent.placeOrder req ∉ (execute_trade tr ex env a).events) ∧
    alGet (execute_trade tr ex env a).trader.active_positions sym = some p.position_side := by
  have d1 : decide (a.action = some "观望") = false := decide_eq_false hact
  have d2 : decide (a.confidence < config.AI_CONFIDENCE_THRESHOLD) = false :=
    decide_eq_false (not_lt.mpr hconf)
  have hg : trade_guards tr ex env a = .error (execFail "已有持仓，无法重复开仓（单向持仓模式）"
      { tr with active_positions := alSet tr.active_positions sym p.position_side }
      ex [.getPosition sym] none) := by
    simp only [trade_guards, hsym, if_neg hne, hq, Bool.not_true, d1, d2, Bool.or_false,
      Bool.false_eq_true, if_false, hcheck]
  have hee : execute_trade tr ex env a = execFail "已有持仓，无法重复开仓（单向持仓模式）"
      { tr with active_positions := alSet tr.active_positions sym p.position_side }
      ex [.getPosition sym] none := by
    simp only [execute_trade, hg]
  rw [hee]
  exact ⟨rfl, rfl, by intro req; simp [execFail],
    by simp only [execFail]; exact alGet_alSet _ _ _⟩

/-- The first position row of the exchange report blocks: its amount is
nonzero and above the dust threshold, so `_check_existing_position` returns
it. -/
theorem check_existing_position_head (env : Env) (ex : List ExchangePosition)
    (pos : ExchangePosition) (sym : String)
    (hgp : env.getPositionOk = true) (hsym : pos.symbol = sym)
    (hdust : 1 / 100000000 < |pos.position_amt|) :
    check_existing_position env (pos :: ex) sym = some pos := by
  have hamt : pos.position_amt ≠ 0 := by
    intro h0
    rw [h0] at hdust
    norm_num at hdust
  have hpred1 : (fun p : ExchangePosition => p.symbol = sym && p.position_amt ≠ 0) pos = true := by
    simp [hsym, hamt]
  unfold check_existing_position
  rw [hgp]
  simp only [Bool.not_true, Bool.false_eq_true, if_false]
  unfold get_position_rows
  rw [List.filter_cons, if_pos hpred1]
  rw [List.find?_cons_of_pos _ (by simp [hsym]; rw [inv_eq_one_div]; exact hdust)]

/-- A raised-free `close_position(symbol)` without a side filter evicts the
symbol from the cache and leaves the exchange with no nonzero position of
the symbol. -/
theorem close_position_none_clears (tr : TraderState) (ex : List ExchangePosition) (env : Env)
    (sym : String) (hgp : env.getPositionOk = true) (hok : env.closeOk = true) :
    alGet (close_position tr ex env sym none).trader.active_positions sym = none ∧
    ∀ q ∈ (close_position tr ex env sym none).exchange,
      ¬(q.symbol = sym ∧ q.position_amt ≠ 0) := by
  unfold close_position
  rw [hgp, hok]
  simp only [Bool.not_true, Bool.false_eq_true, if_false]
  split
  · rename_i heq
    refine ⟨alGet_alDel _ _, ?_⟩
    intro q hq ⟨hqs, hqa⟩
    have hmem : q ∈ get_position_rows ex sym := by
      unfold get_position_rows
      rw [List.mem_filter]
      exact ⟨hq, by simp [hqs, hqa]⟩
    have := List.filter_eq_nil_iff.mp heq q hmem
    simp [hqs, closeSideMatch] at this
  · rename_i p' rest' heq
    refine ⟨alGet_alDel _ _, ?_⟩
    intro q hq ⟨hqs, hqa⟩
    have := (List.mem_filter.mp hq).2
    simp [hqs, hqa, closeSideMatch] at this

/-- The guard phase only hands on symbols that passed the stable-quote
check. -/
theorem trade_guards_ok_quote {tr : TraderState} {ex : List ExchangePosition}
    {env : Env} {a : AnalysisResult} {sym : String} {tr₀ : TraderState}
    {evs : List PlatformEvent}
    (h : trade_guards tr ex env a = .ok (sym, tr₀, evs)) : symbolQuoteOk sym = true := by
  unfold trade_guards at h
  repeat' split at h
  all_goals try exact Except.noConfusion h
  all_goals
    injection h with h2
    injection h2 with h3 h4
    rw [← h3]
    simp_all

/-- C1 counterexample: with the symbol present only in the in-memory cache
and the exchange reporting no position, `execute_trade` clears the stale
cache entry and opens the trade — a MARKET entry order is sent and the call
succeeds, so the cache alone is not sufficient to block a duplicate open as
the claim asserts. -/
theorem C1_cache_only_counterexample :
    alGet cachedTrader.active_positions "BTCUSDT" = some "LONG" ∧
    (execute_trade cachedTrader [] demoEnv goodAnalysis).result.success = true ∧
    ∃ req : OrderReq, req.order_type = "MARKET" ∧ req.close_position = false ∧
      PlatformEvent.placeOrder req ∈ (execute_trade cachedTrader [] demoEnv goodAnalysis).events := by
  have hq : symbolQuoteOk "BTCUSDT" = true := by decide
  have hg : trade_guards cachedTrader [] demoEnv goodAnalysis =
      .ok ("BTCUSDT", emptyTrader, [.getPosition "BTCUSDT", .getPosition "BTCUSDT"]) := by
    norm_num [trade_guards, goodAnalysis, hq, check_existing_position, get_position_rows,
      alGet, alDel, cachedTrader, emptyTrader, config.AI_CONFIDENCE_THRESHOLD, List.find?,
      demoEnv]
    simp
  have hexec : execute_trade cachedTrader [] demoEnv goodAnalysis =
      place_protective_orders (get_account_balance emptyTrader demoEnv).2 [] demoEnv "BTCUSDT"
        (if goodAnalysis.action = some "做多" then "LONG" else "SHORT")
        (if goodAnalysis.action = some "做多" then "BUY" else "SELL") (297 / 5000) 49800 50400
        ([PlatformEvent.getPosition "BTCUSDT", .getPosition "BTCUSDT"] ++
          [PlatformEvent.setLeverage "BTCUSDT" 10, .setMarginType "BTCUSDT" "ISOLATED"])
        (get_account_balance emptyTrader demoEnv).1 := by
    simp only [execute_trade, hg, validate_prices_demo, size_position_demo demoEnv rfl]
    rw [if_pos (Or.inl (show goodAnalysis.action = some "做多" by rfl))]
  have hshape := place_orders_success_shape (get_account_balance emptyTrader demoEnv).2 []
    demoEnv "BTCUSDT" (if goodAnalysis.action = some "做多" then "LONG" else "SHORT")
    (if goodAnalysis.action = some "做多" then "BUY" else "SELL") (297 / 5000) 49800 50400
    ([PlatformEvent.getPosition "BTCUSDT", .getPosition "BTCUSDT"] ++
      [PlatformEvent.setLeverage "BTCUSDT" 10, .setMarginType "BTCUSDT" "ISOLATED"])
    (get_account_balance emptyTrader demoEnv).1 rfl rfl
  refine ⟨rfl, ?_, ?_⟩
  · rw [hexec]
    exact hshape.1
  · rw [hexec]
    exact ⟨_, rfl, rfl, hshape.2.1⟩

/-- C1 amended: the single-direction invariant holds through the exchange's
position report, not through the cache alone.  (a) Whenever the exchange
reports a position for the symbol, `execute_trade` fails with the
already-has-position message, sends no order, and records the reported side
in the cache; the in-memory cache alone is *not* sufficient to block (the
counterexample shows a cache-only entry is evicted and the open proceeds).
(b) A successful `execute_trade` records the symbol in the cache and
creates the exchange position, so (c) as long as the exchange keeps
reporting it (and the recorded quantity exceeds the 1e-8 dust threshold),
every subsequent `execute_trade` for the symbol fails with the
duplicate-open failure without sending any order, until (d) a raised-free
`closePosition(symbol)` removes both the exchange position and the cache
entry. -/
theorem C1_single_position_amended :
    (∀ (tr : TraderState) (ex : List ExchangePosition) (env : Env) (a : AnalysisResult)
      (sym : String) (p : ExchangePosition),
      a.symbol = some sym → sym ≠ "" → symbolQuoteOk sym = true →
      a.action ≠ some "观望" → config.AI_CONFIDENCE_THRESHOLD ≤ a.confidence →
      check_existing_position env ex sym = some p →
      (execute_trade tr ex env a).result.success = false ∧
      (execute_trade tr ex env a).result.message = "已有持仓，无法重复开仓（单向持仓模式）" ∧
      (∀ req, PlatformEvent.placeOrder req ∉ (execute_trade tr ex env a).events)) ∧
    (∀ (tr : TraderState) (ex : List ExchangePosition) (env : Env) (a : AnalysisResult)
      (sym : String) (tr₀ : TraderState) (evs : List PlatformEvent)
      (e sl tp : ℚ) (lev : ℤ) (size : ℚ),
      trade_guards tr ex env a = .ok (sym, tr₀, evs) →
      validate_prices a = .ok (e, sl, tp, lev) →
      (a.action = some "做多" ∨ a.action = some "做空") →
      size_position a.action (get_account_balance tr₀ env).1 e sl lev a.position_size =
        .ok size →
      env.entryOk = true → env.slOk = true →
      (execute_trade tr ex env a).result.success = true ∧
      (∃ side, alGet (execute_trade tr ex env a).trader.active_positions sym = some side) ∧
      (∃ pos : ExchangePosition, (execute_trade tr ex env a).exchange = pos :: ex ∧
        pos.symbol = sym ∧
        (1 / 100000000 < size →
          ∀ (env₂ : Env) (a₂ : AnalysisResult),
            a₂.symbol = some sym → sym ≠ "" → a₂.action ≠ some "观望" →
            config.AI_CONFIDENCE_THRESHOLD ≤ a₂.confidence →
            env₂.getPositionOk = true →
            (execute_trade (execute_trade tr ex env a).trader
              (execute_trade tr ex env a).exchange env₂ a₂).result.success = false ∧
            (execute_trade (execute_trade tr ex env a).trader
              (execute_trade tr ex env a).exchange env₂ a₂).result.message =
              "已有持仓，无法重复开仓（单向持仓模式）" ∧
            ∀ req, PlatformEvent.placeOrder req ∉
              (execute_trade (execute_trade tr ex env a).trader
                (execute_trade tr ex env a).exchange env₂ a₂).events))) ∧
    (∀ (tr : TraderState) (ex : List ExchangePosition) (env : Env) (sym : String),
      env.getPositionOk = true → env.closeOk = true →
      alGet (close_position tr ex env sym none).trader.active_positions sym = none ∧
      ∀ q ∈ (close_position tr ex env sym none).exchange,
        ¬(q.symbol = sym ∧ q.position_amt ≠ 0)) := by
  refine ⟨?_, ?_, fun tr ex env sym hgp hok => close_position_none_clears tr ex env sym hgp hok⟩
  · intro tr ex env a sym p hsym hne hq hact hconf hcheck
    have h := execute_trade_blocked_by_exchange tr ex env a sym p hsym hne hq hact hconf hcheck
    exact ⟨h.1, h.2.1, h.2.2.1⟩
  · intro tr ex env a sym tr₀ evs e sl tp lev size hg hv hact hsz hentry hsl
    have hexec : execute_trade tr ex env a =
        place_protective_orders (get_account_balance tr₀ env).2 ex env sym
          (if a.action = some "做多" then "LONG" else "SHORT")
          (if a.action = some "做多" then "BUY" else "SELL") size sl tp
          (evs ++ [PlatformEvent.setLeverage sym lev, .setMarginType sym "ISOLATED"])
          (get_account_balance tr₀ env).1 := by
      simp only [execute_trade, hg, hv, hsz, if_pos hact]
    have hshape := place_orders_success_shape (get_account_balance tr₀ env).2 ex env sym
      (if a.action = some "做多" then "LONG" else "SHORT")
      (if a.action = some "做多" then "BUY" else "SELL") size sl tp
      (evs ++ [PlatformEvent.setLeverage sym lev, .setMarginType sym "ISOLATED"])
      (get_account_balance tr₀ env).1 hentry hsl
    refine ⟨by rw [hexec]; exact hshape.1,
      ⟨_, by rw [hexec]; exact hshape.2.2.1⟩, ?_⟩
    refine ⟨⟨sym, if a.action = some "做多" then "LONG" else "SHORT",
      if (if a.action = some "做多" then "LONG" else "SHORT") = "LONG" then size else -size⟩,
      by rw [hexec]; exact hshape.2.2.2, rfl, ?_⟩
    intro hdust env₂ a₂ hsym₂ hne₂ hact₂ hconf₂ hgp₂
    have hq₂ : symbolQuoteOk sym = true := trade_guards_ok_quote hg
    have habs : |(if (if a.action = some "做多" then "LONG" else "SHORT") = "LONG" then size
        else -size)| = |size| := by
      split
      · rfl
      · exact abs_neg size
    have hcheck₂ : check_existing_position env₂ (execute_trade tr ex env a).exchange sym =
        some ⟨sym, if a.action = some "做多" then "LONG" else "SHORT",
          if (if a.action = some "做多" then "LONG" else "SHORT") = "LONG" then size
          else -size⟩ := by
      rw [hexec, hshape.2.2.2]
      refine check_existing_position_head env₂ ex _ sym hgp₂ rfl ?_
      rw [habs]
      calc (1 : ℚ) / 100000000 < size := hdust
        _ ≤ |size| := le_abs_self size
    exact execute_trade_blocked_by_exchange _ _ env₂ a₂ sym _ hsym₂ hne₂ hq₂ hact₂ hconf₂
      hcheck₂ |>.imp id (fun h => ⟨h.1, h.2.1⟩)

/-- C1 amended witness: in the concrete all-成功 environment, the BTCUSDT
long opens successfully; re-running the same trade against the resulting
trader and exchange book is blocked with the duplicate-open message; and a
`close_position` over a book holding one BTCUSDT long clears the cache. -/
theorem C1_single_position_amended_witness :
    ((execute_trade emptyTrader [] demoEnv goodAnalysis).result.success = true ∧
      (execute_trade (execute_trade emptyTrader [] demoEnv goodAnalysis).trader
        (execute_trade emptyTrader [] demoEnv goodAnalysis).exchange demoEnv
        goodAnalysis).result.success = false ∧
      (execute_trade (execute_trade emptyTrader [] demoEnv goodAnalysis).trader
        (execute_trade emptyTrader [] demoEnv goodAnalysis).exchange demoEnv
        goodAnalysis).result.message = "已有持仓，无法重复开仓（单向持仓模式）") ∧
    alGet (close_position emptyTrader [⟨"BTCUSDT", "LONG", 1⟩] demoEnv "BTCUSDT"
      none).trader.active_positions "BTCUSDT" = none := by
  have h2 := C1_single_position_amended.2.1 emptyTrader [] demoEnv goodAnalysis "BTCUSDT"
    emptyTrader [.getPosition "BTCUSDT"] 50000 49800 50400 10 (297 / 5000)
    (trade_guards_demo demoEnv rfl) validate_prices_demo (Or.inl rfl)
    (size_position_demo demoEnv rfl) rfl rfl
  have h3 := C1_single_position_amended.2.2 emptyTrader [⟨"BTCUSDT", "LONG", 1⟩] demoEnv
    "BTCUSDT" rfl rfl
  obtain ⟨hsucc, -, pos, hexch, hpsym, hblock⟩ := h2
  have hb := hblock (by norm_num) demoEnv goodAnalysis rfl (by decide) (by decide)
    (by norm_num [goodAnalysis, config.AI_CONFIDENCE_THRESHOLD]) rfl
  exact ⟨⟨hsucc, hb.1, hb.2.1⟩, h3.1⟩

/-- One-step (let-free) unfolding of the kline paging loop. -/
theorem get_klines_loop_eq (candles : List Kline) (now : ℤ) (rem : ℕ) (e : ℤ) :
    get_klines_loop candles now rem e =
      if rem = 0 then ([], [])
      else if serverFetch candles e (min rem 1000) = [] then
        ([], [.request e (min rem 1000)])
      else if (serverFetch candles e (min rem 1000)).length < min rem 1000 then
        ((serverFetch candles e (min rem 1000)).map (toOut now), [.request e (min rem 1000)])
      else if rem - (serverFetch candles e (min rem 1000)).length = 0 then
        ((serverFetch candles e (min rem 1000)).map (toOut now), [.request e (min rem 1000)])
      else
        ((get_klines_loop candles now (rem - (serverFetch candles e (min rem 1000)).length)
            (firstOpenTime (serverFetch candles e (min rem 1000)) - 1)).1 ++
          (serverFetch candles e (min rem 1000)).map (toOut now),
         .request e (min rem 1000) :: .sleep100ms ::
          (get_klines_loop candles now (rem - (serverFetch candles e (min rem 1000)).length)
            (firstOpenTime (serverFetch candles e (min rem 1000)) - 1)).2) := by
  rw [get_klines_loop]
  rfl

/-- `takeLast` keeps a suffix, in particular a sublist. -/
theorem takeLast_sublist (l : List α) (n : ℕ) : (takeLast l n).Sublist l :=
  List.drop_sublist _ _

/-- A server page is a sublist of the exchange book. -/
theorem serverFetch_sublist (candles : List Kline) (e : ℤ) (lim : ℕ) :
    (serverFetch candles e lim).Sublist candles := by
  unfold serverFetch
  split
  · exact takeLast_sublist _ _
  · exact (takeLast_sublist _ _).trans (List.filter_sublist _)

/-- With a nonzero end time, every kline of a page opens at or before it. -/
theorem mem_serverFetch_le {candles : List Kline} {e : ℤ} {lim : ℕ} {k : Kline}
    (he : e ≠ 0) (hk : k ∈ serverFetch candles e lim) : k.openTime ≤ e := by
  unfold serverFetch at hk
  rw [if_neg he] at hk
  have hk₂ := (takeLast_sublist _ _).subset hk
  exact of_decide_eq_true (List.mem_filter.mp hk₂).2

/-- The head open time bounds every open time of a sorted batch. -/
theorem firstOpenTime_le {data : List Kline}
    (hs : data.Pairwise fun a b => a.openTime < b.openTime) {k : Kline} (hk : k ∈ data) :
    firstOpenTime data ≤ k.openTime := by
  cases data with
  | nil => cases hk
  | cons a t =>
    rcases List.mem_cons.mp hk with rfl | hkt
    · exact le_refl _
    · exact le_of_lt ((List.pairwise_cons.mp hs).1 k hkt)

/-- The head open time of a nonempty batch is the open time of a member. -/
theorem firstOpenTime_mem {data : List Kline} (h : data ≠ []) :
    ∃ k ∈ data, firstOpenTime data = k.openTime := by
  cases data with
  | nil => exact absurd rfl h
  | cons a t => exact ⟨a, List.mem_cons_self a t, rfl⟩

/-- Every candle returned by the paging loop opens at or before the current
end time, provided all book open times exceed 1 (millisecond timestamps). -/
theorem get_klines_loop_mem_le (candles : List Kline) (now : ℤ)
    (hpos : ∀ k ∈ candles, 1 < k.openTime) :
    ∀ rem : ℕ, ∀ e : ℤ, e ≠ 0 →
      ∀ x ∈ (get_klines_loop candles now rem e).1, x.openTime ≤ e := by
  intro rem
  induction rem using Nat.strong_induction_on with
  | _ rem ih =>
    intro e he x hx
    rw [get_klines_loop_eq] at hx
    split at hx
    · simp at hx
    rename_i h0
    split at hx
    · simp at hx
    rename_i h1
    split at hx
    · obtain ⟨k, hk, rfl⟩ := List.mem_map.mp hx
      exact mem_serverFetch_le he hk
    split at hx
    · obtain ⟨k, hk, rfl⟩ := List.mem_map.mp hx
      exact mem_serverFetch_le he hk
    rename_i h2 h3
    obtain ⟨k0, hk0, hfo⟩ := firstOpenTime_mem h1
    have hk0e : k0.openTime ≤ e := mem_serverFetch_le he hk0
    have hk0p : 1 < k0.openTime := hpos k0 ((serverFetch_sublist _ _ _).subset hk0)
    rcases List.mem_append.mp hx with hxl | hxr
    · have hlt : rem - (serverFetch candles e (min rem 1000)).length < rem := by
        have := List.length_pos.mpr h1
        omega
      have hne' : firstOpenTime (serverFetch candles e (min rem 1000)) - 1 ≠ 0 := by
        rw [hfo]; omega
      have := ih _ hlt _ hne' x hxl
      rw [hfo] at this
      omega
    · obtain ⟨k, hk, rfl⟩ := List.mem_map.mp hxr
      exact mem_serverFetch_le he hk

/-- With a strictly ascending exchange book, the paging loop returns a
strictly ascending candle list. -/
theorem get_klines_loop_sorted (candles : List Kline) (now : ℤ)
    (hs : candles.Pairwise fun a b => a.openTime < b.openTime)
    (hpos : ∀ k ∈ candles, 1 < k.openTime) :
    ∀ rem : ℕ, ∀ e : ℤ, e ≠ 0 →
      ((get_klines_loop candles now rem e).1.Pairwise
        fun a b => a.openTime < b.openTime) := by
  intro rem
  induction rem using Nat.strong_induction_on with
  | _ rem ih =>
    intro e he
    rw [get_klines_loop_eq]
    have hd : (serverFetch candles e (min rem 1000)).Pairwise
        fun a b => a.openTime < b.openTime :=
      List.Pairwise.sublist (serverFetch_sublist _ _ _) hs
    have hbatch : ((serverFetch candles e (min rem 1000)).map (toOut now)).Pairwise
        fun a b => a.openTime < b.openTime :=
      List.pairwise_map.mpr (hd.imp fun h => h)
    split
    · exact List.Pairwise.nil
    rename_i h0
    split
    · exact List.Pairwise.nil
    rename_i h1
    split
    · exact hbatch
    split
    · exact hbatch
    rename_i h2 h3
    obtain ⟨k0, hk0, hfo⟩ := firstOpenTime_mem h1
    have hk0p : 1 < k0.openTime := hpos k0 ((serverFetch_sublist _ _ _).subset hk0)
    have hlt : rem - (serverFetch candles e (min rem 1000)).length < rem := by
      have := List.length_pos.mpr h1
      omega
    have hne' : firstOpenTime (serverFetch candles e (min rem 1000)) - 1 ≠ 0 := by
      rw [hfo]; omega
    refine List.pairwise_append.mpr ⟨ih _ hlt _ hne', hbatch, ?_⟩
    intro a ha b hb
    obtain ⟨kb, hkb, rfl⟩ := List.mem_map.mp hb
    have hab := get_klines_loop_mem_le candles now hpos _ _ hne' a ha
    have hfb := firstOpenTime_le hd hkb
    show a.openTime < kb.openTime
    omega

/-- Every HTTP request issued by the paging loop asks for at most 1000
candles. -/
theorem get_klines_loop_events (candles : List Kline) (now : ℤ) :
    ∀ rem : ℕ, ∀ e e' : ℤ, ∀ l' : ℕ,
      KlineEvent.request e' l' ∈ (get_klines_loop candles now rem e).2 → l' ≤ 1000 := by
  intro rem
  induction rem using Nat.strong_induction_on with
  | _ rem ih =>
    intro e e' l' hev
    rw [get_klines_loop_eq] at hev
    split at hev
    · simp at hev
    rename_i h0
    split at hev
    · rw [List.mem_singleton] at hev
      injection hev with he1 he2
      omega
    rename_i h1
    split at hev
    · rw [List.mem_singleton] at hev
      injection hev with he1 he2
      omega
    split at hev
    · rw [List.mem_singleton] at hev
      injection hev with he1 he2
      omega
    rename_i h2 h3
    rcases List.mem_cons.mp hev with h | hev2
    · injection h with he1 he2
      omega
    rcases List.mem_cons.mp hev2 with h | hev3
    · exact KlineEvent.noConfusion h
    · have hlt : rem - (serverFetch candles e (min rem 1000)).length < rem := by
        have := List.length_pos.mpr h1
        omega
      exact ih _ hlt _ e' l' hev3

/-- Request-size bound lifted to `get_klines`. -/
theorem get_klines_events_le (candles : List Kline) (now : ℤ) (limit : ℕ) (inc : Bool)
    (et : Option ℤ) (e' : ℤ) (l' : ℕ)
    (h : KlineEvent.request e' l' ∈ (get_klines candles now limit inc et).2) : l' ≤ 1000 :=
  get_klines_loop_events candles now limit _ e' l' h

/-- Head lemma for `firstOpenTime`. -/
theorem firstOpenTime_head {l : List Kline} {k : Kline} (h : l.head? = some k) :
    firstOpenTime l = k.openTime := by
  cases l with
  | nil => cases h
  | cons a t =>
    injection h with h1
    rw [← h1]
    rfl

/-- The candle list returned by `get_klines` is a sublist of the loop
output. -/
theorem get_klines_sub (candles : List Kline) (now : ℤ) (limit : ℕ) (inc : Bool) :
    (get_klines candles now limit inc none).1.Sublist
      (get_klines_loop candles now limit now).1 := by
  simp only [get_klines]
  split
  · refine (List.take_sublist _ _).trans ?_
    split
    · exact List.filter_sublist _
    · exact List.Sublist.refl _
  · split
    · exact List.filter_sublist _
    · exact List.Sublist.refl _

/-- Strict ascension and open-time freshness lifted to `get_klines`. -/
theorem get_klines_sorted (candles : List Kline) (now : ℤ) (limit : ℕ) (inc : Bool)
    (hnow : now ≠ 0) (hs : candles.Pairwise fun a b => a.openTime < b.openTime)
    (hpos : ∀ k ∈ candles, 1 < k.openTime) :
    ((get_klines candles now limit inc none).1.Pairwise
      fun a b => a.openTime < b.openTime) ∧
    ((get_klines candles now limit inc none).1.map fun c => c.openTime).Nodup := by
  have hp := get_klines_loop_sorted candles now hs hpos limit now hnow
  have hres := List.Pairwise.sublist (get_klines_sub candles now limit inc) hp
  exact ⟨hres, List.pairwise_map.mpr (hres.imp fun h => ne_of_lt h)⟩

/-- Range filter below a bound. -/
theorem filter_range_lt (b n : ℕ) :
    (List.range n).filter (fun i => decide (i < b)) = List.range (min b n) := by
  induction n with
  | zero => simp
  | succ n ih =>
    rw [List.range_succ, List.filter_append, ih]
    by_cases h : n < b
    · rw [Nat.min_eq_right (Nat.le_of_lt h), Nat.min_eq_right h]
      simp [h, List.range_succ]
    · rw [Nat.min_eq_left (Nat.le_of_not_lt h),
        Nat.min_eq_left (Nat.le_trans (Nat.le_of_not_lt h) (Nat.le_succ n))]
      simp [h]

/-- The demo book is strictly ascending. -/
theorem demoKlines_sorted : demoKlines.Pairwise fun a b => a.openTime < b.openTime := by
  rw [demoKlines]
  refine List.pairwise_map.mpr ((List.pairwise_lt_range 1600).imp ?_)
  intro i j h
  show (demoKline i).openTime < (demoKline j).openTime
  simp only [demoKline]
  omega

/-- All demo open times exceed 1. -/
theorem demoKlines_pos : ∀ k ∈ demoKlines, 1 < k.openTime := by
  intro k hk
  obtain ⟨i, hi, rfl⟩ := List.mem_map.mp hk
  simp only [demoKline]
  omega

/-- At the demo instant every demo candle opens at or before `demoNow`. -/
theorem demoKlines_filter_now :
    demoKlines.filter (fun k => decide (k.openTime ≤ demoNow)) = demoKlines := by
  refine List.filter_eq_self.mpr ?_
  intro k hk
  obtain ⟨i, hi, rfl⟩ := List.mem_map.mp hk
  have hi' := List.mem_range.mp hi
  simp only [demoKline, demoNow, decide_eq_true_eq]
  omega

/-- Filtering the demo book at the walked-back end time keeps exactly the
first 600 candles. -/
theorem demoKlines_filter_walkback :
    demoKlines.filter (fun k => decide (k.openTime ≤ demoEnd2)) =
      (List.range 600).map demoKline := by
  rw [demoKlines, List.filter_map, Function.comp_def]
  have hc : ∀ i ∈ List.range 1600,
      decide ((demoKline i).openTime ≤ demoEnd2) = decide (i < 600) := by
    intro i hi
    simp only [demoKline, demoEnd2, decide_eq_decide]
    omega
  rw [List.filter_congr hc, filter_range_lt]
  rw [(by norm_num : min 600 1600 = 600)]

/-- The first demo page is the last 1000 candles of the book. -/
theorem demo_fetch_page1 : serverFetch demoKlines demoNow 1000 = demoKlines.drop 600 := by
  unfold serverFetch
  rw [if_neg (by norm_num [demoNow] : ¬(demoNow = 0)), demoKlines_filter_now]
  unfold takeLast
  rw [(show demoKlines.length - 1000 = 600 by
    rw [demoKlines, List.length_map, List.length_range])]

/-- Length of the first demo page. -/
theorem demo_page1_len : (demoKlines.drop 600).length = 1000 := by
  norm_num [demoKlines]

/-- The first demo page opens at the candle of index 600. -/
theorem demo_page1_first : firstOpenTime (demoKlines.drop 600) = demoEnd2 + 1 := by
  have hh : (demoKlines.drop 600).head? = some (demoKline 600) := by
    rw [List.head?_drop, demoKlines, List.getElem?_map,
      List.getElem?_range (by norm_num : (600 : ℕ) < 1600)]
    rfl
  rw [firstOpenTime_head hh]
  norm_num [demoKline, demoEnd2]

/-- The second demo page is the 500 candles before the first page. -/
theorem demo_fetch_page2 :
    serverFetch demoKlines demoEnd2 500 = ((List.range 600).map demoKline).drop 100 := by
  unfold serverFetch
  rw [if_neg (by norm_num [demoEnd2] : ¬(demoEnd2 = 0)), demoKlines_filter_walkback]
  unfold takeLast
  rw [(show ((List.range 600).map demoKline).length - 500 = 100 by
    rw [List.length_map, List.length_range])]

/-- Length of the second demo page. -/
theorem demo_page2_len : (((List.range 600).map demoKline).drop 100).length = 500 := by
  norm_num

/-- Second (final) round of the demo paging loop. -/
theorem demo_loop_page2 :
    get_klines_loop demoKlines demoNow 500 demoEnd2 =
      ((((List.range 600).map demoKline).drop 100).map (toOut demoNow),
       [.request demoEnd2 500]) := by
  have hne : ((List.range 600).map demoKline).drop 100 ≠ [] := by
    intro hc
    have := demo_page2_len
    rw [hc] at this
    simp at this
  rw [get_klines_loop_eq]
  rw [if_neg (by norm_num : ¬(500 = 0)), (by norm_num : min 500 1000 = 500), demo_fetch_page2]
  rw [if_neg hne, demo_page2_len]
  rw [if_neg (by norm_num : ¬(500 < 500)), if_pos (by norm_num : 500 - 500 = 0)]

/-- Full run of the demo paging loop: two pages walking the end time back,
with one sleep between them. -/
theorem demo_loop_pages :
    get_klines_loop demoKlines demoNow 1500 demoNow =
      ((((List.range 600).map demoKline).drop 100).map (toOut demoNow) ++
         (demoKlines.drop 600).map (toOut demoNow),
       [.request demoNow 1000, .sleep100ms, .request demoEnd2 500]) := by
  have hne : demoKlines.drop 600 ≠ [] := by
    intro hc
    have := demo_page1_len
    rw [hc] at this
    simp at this
  rw [get_klines_loop_eq]
  rw [if_neg (by norm_num : ¬(1500 = 0)), (by norm_num : min 1500 1000 = 1000),
    demo_fetch_page1]
  rw [if_neg hne, demo_page1_len]
  rw [if_neg (by norm_num : ¬(1000 < 1000)), if_neg (by norm_num : ¬(1500 - 1000 = 0))]
  rw [demo_page1_first, add_sub_cancel_right, (by norm_num : (1500 : ℕ) - 1000 = 500)]
  rw [demo_loop_page2]

/-- Candles and events of the full demo `get_klines` call: all 1500
returned candles are closed, so the open-candle strip keeps them all. -/
theorem demo_run_result :
    (get_klines demoKlines demoNow 1500 false none).1 =
      (((List.range 600).map demoKline).drop 100).map (toOut demoNow) ++
        (demoKlines.drop 600).map (toOut demoNow) ∧
    (get_klines demoKlines demoNow 1500 false none).2 =
      [.request demoNow 1000, .sleep100ms, .request demoEnd2 500] := by
  have hclosed : ∀ x ∈ (((List.range 600).map demoKline).drop 100).map (toOut demoNow) ++
      (demoKlines.drop 600).map (toOut demoNow), x.is_closed = true := by
    intro x hx
    have hxk : ∃ i : ℕ, i < 1600 ∧ x = toOut demoNow (demoKline i) := by
      rcases List.mem_append.mp hx with hx | hx
      · obtain ⟨k, hk, rfl⟩ := List.mem_map.mp hx
        obtain ⟨i, hi, rfl⟩ := List.mem_map.mp ((List.drop_sublist _ _).subset hk)
        have hi' := List.mem_range.mp hi
        exact ⟨i, by omega, rfl⟩
      · obtain ⟨k, hk, rfl⟩ := List.mem_map.mp hx
        obtain ⟨i, hi, rfl⟩ :=
          List.mem_map.mp ((List.drop_sublist _ _).subset (by rw [demoKlines] at hk; exact hk))
        exact ⟨i, List.mem_range.mp hi, rfl⟩
    obtain ⟨i, hi, rfl⟩ := hxk
    simp only [toOut]
    rw [decide_eq_true_eq]
    simp only [demoKline, demoNow]
    omega
  have hlen : ((((List.range 600).map demoKline).drop 100).map (toOut demoNow) ++
      (demoKlines.drop 600).map (toOut demoNow)).length = 1500 := by
    norm_num [demoKlines]
  have hne : (((List.range 600).map demoKline).drop 100).map (toOut demoNow) ++
      (demoKlines.drop 600).map (toOut demoNow) ≠ [] := by
    intro hcon
    rw [hcon] at hlen
    simp at hlen
  constructor
  · simp only [get_klines, demo_loop_pages]
    rw [if_pos (show (1500 : ℕ) ≠ 0 by norm_num)]
    rw [if_pos (show (!false && !((((List.range 600).map demoKline).drop 100).map (toOut demoNow) ++
        (demoKlines.drop 600).map (toOut demoNow)).isEmpty) = true by
      simp [List.isEmpty_eq_false.mpr hne])]
    rw [List.filter_eq_self.mpr hclosed]
    exact List.take_of_length_le (le_of_eq hlen)
  · simp only [get_klines, demo_loop_pages]

/-- The demo call returns exactly 1500 candles. -/
theorem demo_run_len : (get_klines demoKlines demoNow 1500 false none).1.length = 1500 := by
  rw [demo_run_result.1]
  norm_num [demoKlines]

/-- The five-candle book fits in one page. -/
theorem klines5_loop :
    get_klines_loop klines5 45 5 45 = (klines5.map (toOut 45), [.request 45 5]) := by
  rw [get_klines_loop_eq]
  rfl

/-- With `include_current = false` the still-open tail candle is stripped. -/
theorem klines5_strip :
    (get_klines klines5 45 5 false none).1 =
      [⟨2, 10, 1, true⟩, ⟨11, 20, 2, true⟩, ⟨21, 30, 3, true⟩, ⟨31, 40, 4, true⟩] := by
  simp only [get_klines, klines5_loop]
  rfl

/-- With `include_current = true` the open tail candle is kept. -/
theorem klines5_open :
    (get_klines klines5 45 5 true none).1 =
      [⟨2, 10, 1, true⟩, ⟨11, 20, 2, true⟩, ⟨21, 30, 3, true⟩, ⟨31, 40, 4, true⟩,
       ⟨41, 50, 5, false⟩] := by
  simp only [get_klines, klines5_loop]
  rfl

/-- The five-candle call issues a single request. -/
theorem klines5_events : (get_klines klines5 45 5 true none).2 = [.request 45 5] := by
  simp only [get_klines, klines5_loop]

/-- C7: `get_klines` paginates in pages of at most 1000 candles; over a
strictly ascending exchange book (with positive millisecond open times) the
returned list is strictly ascending with no duplicate open time; on the
1600-candle hourly demo book a `limit = 1500` call performs exactly two
requests (1000 then 500) separated by one 100 ms sleep, the second request's
end time being the earliest open time of the first page minus one, and
returns exactly 1500 candles; and with `includeOpen = false` the still-open
tail candle is stripped from the result while `includeOpen = true` keeps
it. -/
theorem C7_klines_pagination :
    (∀ (candles : List Kline) (now : ℤ) (limit : ℕ) (inc : Bool) (et : Option ℤ)
      (e' : ℤ) (l' : ℕ),
      KlineEvent.request e' l' ∈ (get_klines candles now limit inc et).2 → l' ≤ 1000) ∧
    (∀ (candles : List Kline) (now : ℤ) (limit : ℕ) (inc : Bool),
      now ≠ 0 → (candles.Pairwise fun a b => a.openTime < b.openTime) →
      (∀ k ∈ candles, 1 < k.openTime) →
      ((get_klines candles now limit inc none).1.Pairwise
        fun a b => a.openTime < b.openTime) ∧
      ((get_klines candles now limit inc none).1.map fun c => c.openTime).Nodup) ∧
    ((get_klines demoKlines demoNow 1500 false none).2 =
        [.request demoNow 1000, .sleep100ms, .request demoEnd2 500] ∧
      demoEnd2 = firstOpenTime (serverFetch demoKlines demoNow 1000) - 1 ∧
      (get_klines demoKlines demoNow 1500 false none).1.length = 1500) ∧
    ((get_klines klines5 45 5 false none).1 =
        [⟨2, 10, 1, true⟩, ⟨11, 20, 2, true⟩, ⟨21, 30, 3, true⟩, ⟨31, 40, 4, true⟩] ∧
      (get_klines klines5 45 5 true none).1 =
        [⟨2, 10, 1, true⟩, ⟨11, 20, 2, true⟩, ⟨21, 30, 3, true⟩, ⟨31, 40, 4, true⟩,
         ⟨41, 50, 5, false⟩]) := by
  refine ⟨get_klines_events_le,
    fun candles now limit inc hnow hs hpos => get_klines_sorted candles now limit inc hnow hs hpos,
    ⟨demo_run_result.2, ?_, demo_run_len⟩, klines5_strip, klines5_open⟩
  rw [demo_fetch_page1, demo_page1_first]
  omega

/-- C7 witness: the request-size bound and the sortedness conclusion
evaluated on the concrete five-candle book. -/
theorem C7_klines_pagination_witness :
    ((5 : ℕ) ≤ 1000 ∧ KlineEvent.request 45 5 ∈ (get_klines klines5 45 5 true none).2) ∧
    ((get_klines klines5 45 5 true none).1.Pairwise fun a b => a.openTime < b.openTime) := by
  have hmem : KlineEvent.request 45 5 ∈ (get_klines klines5 45 5 true none).2 := by
    rw [klines5_events]
    exact List.mem_singleton.mpr rfl
  exact ⟨⟨C7_klines_pagination.1 klines5 45 5 true none 45 5 hmem, hmem⟩,
    (C7_klines_pagination.2.1 klines5 45 5 true (by norm_num) (by decide) (by decide)).1⟩

end TradingAI
